import Mathlib

/-!
# Page-table simulator (`pagetable.c`): frame allocation, tables, listings

A shallow embedding of `pagetable.c`.  The C globals (`coremap`, `memsize`, the
five counters, `pgdir`, `physmem`, the memory holding page-table entries) become
the fields of one
state record `Sim` that every operation takes and returns.  The two function
pointers the file calls but does not define (`evict_fcn`, `swap_pageout`) are
the fields of `Env`; the constants of the header `pagetable.h`, which the file
includes but which is not among the sources, are the fields of `Params` and of
`Layout`.

Conventions of the embedding:
* a `pgtbl_entry_t *` is the identity (address) of a page-table entry, a `Nat`,
  and `Sim.ptes` is the memory holding the entries;
* `frame` is an unsigned machine word of `Params.FRAME_BITS` bits, so `x & ~m`
  is `x &&& (2 ^ FRAME_BITS - 1 - m)`;
* the counters are C `int`s that are only ever incremented; signed overflow is
  undefined in C and the counters are mathematical integers here;
* `exit(1)` and an access outside `coremap[0 .. memsize)` are outcomes of their
  own (`Outcome.exit`, `Outcome.undef`);
* an address is a `Nat`; the entry `pgtbl[i]` of a second-level table at address
  `pgtbl` is the entry at address `pgtbl + i * sizeof(pgtbl_entry_t)`;
* what the two printing functions write is the list of the lines they print.
-/

namespace PageTable

/-- Constants of `pagetable.h` used by `pagetable.c`.  The header is not among
the sources, so the values are parameters. -/
structure Params where
  /-- width in bits of the unsigned field `pgtbl_entry_t.frame` -/
  FRAME_BITS : Nat
  PG_VALID : Nat
  PG_DIRTY : Nat
  PG_ONSWAP : Nat
  PAGE_SHIFT : Nat
  INVALID_SWAP : Int

/-- What the theorems need of the flag constants: each fits the `frame` word and
no two flags share a bit. -/
structure Params.WF (P : Params) : Prop where
  valid_lt : P.PG_VALID < 2 ^ P.FRAME_BITS
  dirty_lt : P.PG_DIRTY < 2 ^ P.FRAME_BITS
  onswap_lt : P.PG_ONSWAP < 2 ^ P.FRAME_BITS
  valid_dirty : P.PG_VALID &&& P.PG_DIRTY = 0
  valid_onswap : P.PG_VALID &&& P.PG_ONSWAP = 0
  dirty_onswap : P.PG_DIRTY &&& P.PG_ONSWAP = 0

/-- The usual values of the header: a 32-bit `frame`, flags in bits 0, 1 and 3,
4096-byte pages, `INVALID_SWAP` equal to `-1`. -/
def stdParams : Params :=
  { FRAME_BITS := 32, PG_VALID := 1, PG_DIRTY := 2, PG_ONSWAP := 8,
    PAGE_SHIFT := 12, INVALID_SWAP := -1 }

/-- A second-level page-table entry, `pgtbl_entry_t`. -/
structure Pte where
  frame : Nat
  swap_off : Int
deriving DecidableEq, Repr

/-- A core-map entry, `struct frame`: `in_use` and the back-reference `pte`. -/
structure Frame where
  in_use : Nat
  pte : Nat
deriving DecidableEq, Repr

/-- One call of `swap_pageout`, as recorded in the log of the state: the entry
being evicted, and the two arguments of the call. -/
structure SwapCall where
  victim : Nat
  frame : Nat
  swap_off : Int
deriving DecidableEq, Repr

/-- The program state. `evict_calls` and `swap_log` are not C variables: they
record the calls made to `evict_fcn` and to `swap_pageout`. -/
structure Sim where
  memsize : Nat
  coremap : Nat → Frame
  ptes : Nat → Pte
  hit_count : Int
  miss_count : Int
  ref_count : Int
  evict_clean_count : Int
  evict_dirty_count : Int
  evict_calls : Nat
  swap_log : List SwapCall
  /-- the array `pgdir`: the field `pde` of each page-directory entry -/
  pgdir : Nat → Nat := fun _ => 0
  /-- the bytes of the simulated physical memory `physmem` -/
  physmem : Nat → Nat := fun _ => 0

/-- The two external functions. Each may read the whole state, the log of
earlier calls included, so its answer may differ from call to call; neither
writes to the core map, the page-table entries or the counters.  `evict_fcn`
returns a C `int`, `swap_pageout` an `off_t` where `-1` reports failure. -/
structure Env where
  evict_fcn : Sim → Int
  swap_pageout : Sim → Nat → Int → Int

/-- How a call ends: it returns `fn`, it calls `exit(1)`, or it reads
`coremap[fn]` outside the array. -/
inductive Outcome where
  | ret (fn : Int) (s : Sim)
  | exit (s : Sim)
  | undef

/-- The C expression `x & ~m` on the unsigned `frame` word. -/
def clearMask (P : Params) (x m : Nat) : Nat :=
  x &&& (2 ^ P.FRAME_BITS - 1 - m)

/-- Assignment to `q->frame`. -/
def Sim.setFrame (s : Sim) (q : Nat) (v : Nat) : Sim :=
  { s with ptes := fun j => if j = q then { s.ptes q with frame := v } else s.ptes j }

/-- Assignment to `q->swap_off`. -/
def Sim.setSwapOff (s : Sim) (q : Nat) (v : Int) : Sim :=
  { s with ptes := fun j => if j = q then { s.ptes q with swap_off := v } else s.ptes j }

/-- Lines 82-83: `coremap[fn].in_use = 1; coremap[fn].pte = p;`. -/
def Sim.setCoremap (s : Sim) (fn : Nat) (p : Nat) : Sim :=
  { s with coremap := fun j => if j = fn then { in_use := 1, pte := p } else s.coremap j }

/-- The loop of lines 38-45 from index `i` with `n` iterations left: the first
`j ≥ i` with `coremap[j].in_use == 0`, or `-1` (the initial value of `fn`). -/
def scanFrom (coremap : Nat → Frame) (i : Nat) : Nat → Int
  | 0 => -1
  | n + 1 => if (coremap i).in_use = 0 then (i : Int) else scanFrom coremap (i + 1) n

/-- Lines 34-45: `fn` after the scan of the core map. -/
def scanFree (s : Sim) : Int :=
  scanFrom s.coremap 0 s.memsize

/-- Lines 55-59: `victim->frame &= ~PG_VALID`, then the counting. -/
def evictMark (P : Params) (s : Sim) (victim : Nat) : Sim :=
  let s1 := s.setFrame victim (clearMask P (s.ptes victim).frame P.PG_VALID)
  if (s1.ptes victim).frame &&& P.PG_DIRTY ≠ 0 then
    { s1 with evict_dirty_count := s1.evict_dirty_count + 1 }
  else
    { s1 with evict_clean_count := s1.evict_clean_count + 1 }

/-- The test of line 62 on the current `victim->frame`. -/
def needsPageout (P : Params) (s : Sim) (victim : Nat) : Prop :=
  (s.ptes victim).frame &&& P.PG_ONSWAP = 0 ∨ (s.ptes victim).frame &&& P.PG_DIRTY ≠ 0

instance (P : Params) (s : Sim) (victim : Nat) : Decidable (needsPageout P s victim) := by
  unfold needsPageout; infer_instance

/-- Lines 82-85. -/
def finish (s : Sim) (fn : Int) (p : Nat) : Outcome :=
  .ret fn (s.setCoremap fn.toNat p)

/-- The function `allocate_frame` (lines 33-86). -/
def allocate_frame (P : Params) (E : Env) (s : Sim) (p : Nat) : Outcome :=
  let fn := scanFree s
  if fn = -1 then
    let fn := E.evict_fcn s
    let s := { s with evict_calls := s.evict_calls + 1 }
    if fn < 0 ∨ (s.memsize : Int) ≤ fn then .undef
    else
      let victim := (s.coremap fn.toNat).pte
      let swap_off := (s.ptes victim).swap_off
      let s := evictMark P s victim
      if needsPageout P s victim then
        let s := s.setFrame victim (clearMask P (s.ptes victim).frame P.PG_DIRTY)
        let fr := (s.ptes victim).frame >>> P.PAGE_SHIFT
        let ret_off := E.swap_pageout s fr swap_off
        let s := { s with swap_log := s.swap_log ++ [⟨victim, fr, swap_off⟩] }
        if ret_off ≠ -1 then finish (s.setSwapOff victim ret_off) fn p
        else .exit s
      else finish s fn p
  else finish s fn p

/-! ### Names for the intermediate values of an eviction -/

/-- The entry `coremap[fn].pte` for the `fn` that `evict_fcn` returns in `s`. -/
def victimOf (E : Env) (s : Sim) : Nat :=
  (s.coremap (E.evict_fcn s).toNat).pte

/-- The state after line 59 of a call that entered the eviction branch in `s`. -/
def evictState (P : Params) (E : Env) (s : Sim) : Sim :=
  evictMark P { s with evict_calls := s.evict_calls + 1 } (victimOf E s)

/-- The state after line 64, in which `swap_pageout` is called. -/
def pageoutState (P : Params) (E : Env) (s : Sim) : Sim :=
  (evictState P E s).setFrame (victimOf E s)
    (clearMask P ((evictState P E s).ptes (victimOf E s)).frame P.PG_DIRTY)

/-- The first argument of the call of `swap_pageout` at line 65. -/
def pageoutFrame (P : Params) (E : Env) (s : Sim) : Nat :=
  ((pageoutState P E s).ptes (victimOf E s)).frame >>> P.PAGE_SHIFT

/-- The value `ret_off` of line 65. -/
def pageoutRet (P : Params) (E : Env) (s : Sim) : Int :=
  E.swap_pageout (pageoutState P E s) (pageoutFrame P E s) (s.ptes (victimOf E s)).swap_off

/-- The state in which a call that wrote the victim back leaves line 76 (with
`swap_off` assigned) or calls `exit` (without). -/
def loggedState (P : Params) (E : Env) (s : Sim) : Sim :=
  { pageoutState P E s with
    swap_log := (pageoutState P E s).swap_log ++
      [⟨victimOf E s, pageoutFrame P E s, (s.ptes (victimOf E s)).swap_off⟩] }

/-- The flag test `q->frame & m` of the C code, as a proposition. -/
def flagSet (s : Sim) (q : Nat) (m : Nat) : Prop :=
  (s.ptes q).frame &&& m ≠ 0

instance (s : Sim) (q m : Nat) : Decidable (flagSet s q m) := by
  unfold flagSet; infer_instance

/-- The state a call ends in, when it returns or exits. -/
def Outcome.sim? : Outcome → Option Sim
  | .ret _ s => some s
  | .exit s => some s
  | .undef => none

/-- The frame number a call returns, when it returns. -/
def Outcome.fn? : Outcome → Option Int
  | .ret fn _ => some fn
  | _ => none

/-- Calls `allocate_frame(p)` for the entries `p` of the list in turn, each in
the state the call before returned with; `none` when a call does not return. -/
def allocRun (P : Params) (E : Env) : Sim → List Nat → Option Sim
  | s, [] => some s
  | s, p :: ps =>
    match allocate_frame P E s p with
    | .ret _ s' => allocRun P E s' ps
    | _ => none

/-- The frame numbers returned by the calls of `allocRun`, in order, up to the
first call that does not return. -/
def allocFrames (P : Params) (E : Env) : Sim → List Nat → List Int
  | _, [] => []
  | s, p :: ps =>
    match allocate_frame P E s p with
    | .ret fn s' => fn :: allocFrames P E s' ps
    | _ => []

/-- How many calls of `allocRun` found no free frame in the core map (the scan
of lines 38-45 left `fn == -1`). -/
def noFreeCalls (P : Params) (E : Env) : Sim → List Nat → Nat
  | _, [] => 0
  | s, p :: ps =>
    (if scanFree s = -1 then 1 else 0) +
      match allocate_frame P E s p with
      | .ret _ s' => noFreeCalls P E s' ps
      | _ => 0

set_option linter.unusedVariables false in
/-- The function `find_physpage` (lines 167-169).  Its body in the source is
empty: no statement runs, so the state is returned as it was, and no value is
returned (`none`). -/
def find_physpage (s : Sim) (vaddr : Nat) (type : Char) : Option Nat × Sim :=
  (none, s)

/-! ### Page directory, second-level tables, frames of physical memory -/

/-- Further constants of `pagetable.h` and `sim.h` and sizes of C types, which
the functions below use; the headers are not among the sources, so the values
are parameters. -/
structure Layout where
  /-- width in bits of `uintptr_t` -/
  PTR_BITS : Nat
  PAGE_SIZE : Nat
  /-- the constant `PAGE_MASK` as a `uintptr_t` -/
  PAGE_MASK : Nat
  PTRS_PER_PGDIR : Nat
  PTRS_PER_PGTBL : Nat
  /-- the value of `sizeof(pgtbl_entry_t)` -/
  PTE_SIZE : Nat
  SIMPAGESIZE : Nat
  /-- the value of `sizeof(int)` -/
  INT_SIZE : Nat
  /-- the value of `sizeof(addr_t)` -/
  ADDR_SIZE : Nat
  /-- byte `k` of the object representation of the `addr_t` value `v` -/
  addrByte : Nat → Nat → Nat

/-- What the theorems need of the layout: `PAGE_SIZE` is a power of two that
fits a pointer, `PAGE_MASK` is `~(PAGE_SIZE - 1)`, and the flag `PG_VALID` is a
nonzero value below `PAGE_SIZE`. -/
structure Layout.WF (P : Params) (L : Layout) : Prop where
  page_size : L.PAGE_SIZE = 2 ^ P.PAGE_SHIFT
  shift_le : P.PAGE_SHIFT ≤ L.PTR_BITS
  page_mask : L.PAGE_MASK = 2 ^ L.PTR_BITS - 1 - (L.PAGE_SIZE - 1)
  valid_pos : 0 < P.PG_VALID
  valid_low : P.PG_VALID < L.PAGE_SIZE

/-- The usual values: 64-bit pointers, 4096-byte pages, 4096 entries in the
directory and in each table, 16-byte table entries, 16-byte simulated frames,
a 4-byte `int`, an 8-byte little-endian `addr_t`. -/
def stdLayout : Layout :=
  { PTR_BITS := 64, PAGE_SIZE := 4096, PAGE_MASK := 2 ^ 64 - 4096,
    PTRS_PER_PGDIR := 4096, PTRS_PER_PGTBL := 4096, PTE_SIZE := 16,
    SIMPAGESIZE := 16, INT_SIZE := 4, ADDR_SIZE := 8,
    addrByte := fun v k => (v >>> (8 * k)) % 256 }

/-- Assignment to `pgdir[i].pde`. -/
def Sim.setPde (s : Sim) (i : Nat) (v : Nat) : Sim :=
  { s with pgdir := fun j => if j = i then v else s.pgdir j }

/-- The loop of lines 102-104 from index `i` with `n` iterations left. -/
def pgdirLoop : Nat → Nat → Sim → Sim
  | _, 0, s => s
  | i, n + 1, s => pgdirLoop (i + 1) n (s.setPde i 0)

/-- The function `init_pagetable` (lines 98-105). -/
def init_pagetable (L : Layout) (s : Sim) : Sim :=
  pgdirLoop 0 L.PTRS_PER_PGDIR s

/-- The loop of lines 123-127 from index `i` with `n` iterations left, for the
table at address `pgtbl`. -/
def pgtblLoop (P : Params) (L : Layout) (pgtbl : Nat) : Nat → Nat → Sim → Sim
  | _, 0, s => s
  | i, n + 1, s =>
    pgtblLoop P L pgtbl (i + 1) n
      ((s.setFrame (pgtbl + i * L.PTE_SIZE) 0).setSwapOff (pgtbl + i * L.PTE_SIZE)
        P.INVALID_SWAP)

/-- The function `init_second_level` (lines 109-132).  `memalign align size` is
the call `posix_memalign(&pgtbl, align, size)`: `none` when it reports failure,
`some pgtbl` with the address it stored otherwise.  The result is `none` when
the function calls `exit(1)`, and the field `pde` of the returned entry with
the state otherwise. -/
def init_second_level (P : Params) (L : Layout) (memalign : Nat → Nat → Option Nat)
    (s : Sim) : Option (Nat × Sim) :=
  match memalign L.PAGE_SIZE (L.PTRS_PER_PGTBL * L.PTE_SIZE) with
  | none => none
  | some pgtbl =>
    let s := pgtblLoop P L pgtbl 0 L.PTRS_PER_PGTBL s
    some (pgtbl ||| P.PG_VALID, s)

/-- The call `memset(ptr, c, n)` on `physmem`. -/
def Sim.memset (s : Sim) (ptr c n : Nat) : Sim :=
  { s with physmem := fun b => if ptr ≤ b ∧ b < ptr + n then c else s.physmem b }

/-- The assignment `*vaddr_ptr = vaddr` of an `addr_t` at address `ptr` of
`physmem`: the `ADDR_SIZE` bytes from `ptr` get the bytes of the value. -/
def Sim.storeAddr (L : Layout) (s : Sim) (ptr v : Nat) : Sim :=
  { s with physmem := fun b =>
      if ptr ≤ b ∧ b < ptr + L.ADDR_SIZE then L.addrByte v (b - ptr) else s.physmem b }

/-- The function `init_frame` (lines 146-152).  `physmem` is an array of
`memsize * SIMPAGESIZE` bytes; the result is `none` when `memset` or the
assignment would write outside it. -/
def init_frame (L : Layout) (s : Sim) (frame_num : Int) (vaddr : Nat) : Option Sim :=
  if frame_num < 0 then none
  else
    let mem_ptr := frame_num.toNat * L.SIMPAGESIZE
    let vaddr_ptr := mem_ptr + L.INT_SIZE
    if s.memsize * L.SIMPAGESIZE < mem_ptr + L.SIMPAGESIZE then none
    else
      let s := s.memset mem_ptr 0 L.SIMPAGESIZE
      if s.memsize * L.SIMPAGESIZE < vaddr_ptr + L.ADDR_SIZE then none
      else some (s.storeAddr L vaddr_ptr vaddr)

/-- A line printed by `print_pagetbl` or `print_pagedirectory`, by its format
and arguments; `assertFailed` is the failure of the `assert` of line 200. -/
inductive Line where
  /-- `"\t[%d] - [%d]: INVALID\n"` of `print_pagetbl` -/
  | tblInvalid (first last : Int)
  /-- `"\t[%d]: VALID, "`, `"DIRTY, "` when `dirty`, `"in frame %d\n"` -/
  | tblValid (i : Nat) (dirty : Bool) (frame : Nat)
  /-- `"\t[%d]: ONSWAP, at offset %lu\n"` -/
  | tblOnswap (i : Nat) (swap_off : Int)
  | assertFailed
  /-- `"[%d]: INVALID\n  to\n[%d]: INVALID\n"` of `print_pagedirectory` -/
  | dirInvalid (first last : Int)
  /-- `"[%d]: %p\n"` of `print_pagedirectory` -/
  | dirTable (i : Nat) (pgtbl : Nat)
deriving DecidableEq, Repr

/-- Lines 187-190 and 205-207: the pending run of invalid entries is printed
when there is one (`first_invalid != -1`). -/
def flushTbl (first last : Int) : List Line :=
  if first ≠ -1 then [.tblInvalid first last] else []

/-- The function `print_pagetbl` (lines 174-209) from index `i` with `n`
iterations of the loop left and the current `first_invalid`, `last_invalid`. -/
def pagetblLoop (P : Params) (L : Layout) (s : Sim) (pgtbl : Nat) :
    Nat → Nat → Int → Int → List Line
  | _, 0, first, last => flushTbl first last
  | i, n + 1, first, last =>
    let e := s.ptes (pgtbl + i * L.PTE_SIZE)
    if e.frame &&& P.PG_VALID = 0 ∧ e.frame &&& P.PG_ONSWAP = 0 then
      pagetblLoop P L s pgtbl (i + 1) n (if first = -1 then (i : Int) else first) (i : Int)
    else
      flushTbl first last ++
        (if e.frame &&& P.PG_VALID ≠ 0 then
          Line.tblValid i (decide (e.frame &&& P.PG_DIRTY ≠ 0)) (e.frame >>> P.PAGE_SHIFT) ::
            pagetblLoop P L s pgtbl (i + 1) n (-1) (if first ≠ -1 then -1 else last)
        else if e.frame &&& P.PG_ONSWAP ≠ 0 then
          Line.tblOnswap i e.swap_off :: pagetblLoop P L s pgtbl (i + 1) n (-1) (if first ≠ -1 then -1 else last)
        else [Line.assertFailed])

/-- The function `print_pagetbl` (lines 174-209). -/
def print_pagetbl (P : Params) (L : Layout) (s : Sim) (pgtbl : Nat) : List Line :=
  pagetblLoop P L s pgtbl 0 L.PTRS_PER_PGTBL (-1) (-1)

/-- The function `print_pagedirectory` (lines 211-235) from index `i` with `n`
iterations of the loop left and the current `first_invalid`, `last_invalid`.
Nothing follows the loop. -/
def pagedirLoop (P : Params) (L : Layout) (s : Sim) : Nat → Nat → Int → Int → List Line
  | _, 0, _, _ => []
  | i, n + 1, first, last =>
    if s.pgdir i &&& P.PG_VALID = 0 then
      pagedirLoop P L s (i + 1) n (if first = -1 then (i : Int) else first) (i : Int)
    else
      (if first ≠ -1 then [Line.dirInvalid first last] else []) ++
        Line.dirTable i (s.pgdir i &&& L.PAGE_MASK) ::
          (print_pagetbl P L s (s.pgdir i &&& L.PAGE_MASK) ++
            pagedirLoop P L s (i + 1) n (-1) (if first ≠ -1 then -1 else last))

/-- The function `print_pagedirectory` (lines 211-235). -/
def print_pagedirectory (P : Params) (L : Layout) (s : Sim) : List Line :=
  pagedirLoop P L s 0 L.PTRS_PER_PGDIR (-1) (-1)

/-- A sequence of calls of `find_physpage`, each in the state the call before
left. -/
def physRun : Sim → List (Nat × Char) → Sim
  | s, [] => s
  | s, (vaddr, type) :: rest => physRun (find_physpage s vaddr type).2 rest

/-- The frames below `k` are in use and the frames from `k` up to `memsize` are
free. -/
def filledTo (s : Sim) (k : Nat) : Prop :=
  (∀ i, i < k → (s.coremap i).in_use ≠ 0) ∧
  (∀ i, k ≤ i → i < s.memsize → (s.coremap i).in_use = 0)

/-! ### Sample inputs -/

/-- A core map of `n` frames, none in use; every page-table entry as
`init_second_level` leaves it (`frame = 0`, `swap_off = -1`); counters zero. -/
def emptySim (n : Nat) : Sim :=
  { memsize := n, coremap := fun _ => ⟨0, 0⟩, ptes := fun _ => ⟨0, -1⟩,
    hit_count := 0, miss_count := 0, ref_count := 0,
    evict_clean_count := 0, evict_dirty_count := 0, evict_calls := 0, swap_log := [] }

/-- One frame, in use by entry 10, which is resident in frame 0, clean and
never written to swap (`frame = PG_VALID`, `swap_off = -1`). -/
def oneFrameSim : Sim :=
  { emptySim 1 with
    coremap := fun j => if j = 0 then ⟨1, 10⟩ else ⟨0, 0⟩
    ptes := fun j => if j = 10 then ⟨1, -1⟩ else ⟨0, -1⟩ }

/-- As `oneFrameSim`, with entry 10 dirty and already on swap at offset 5
(`frame = PG_VALID | PG_DIRTY | PG_ONSWAP`). -/
def dirtyFrameSim : Sim :=
  { emptySim 1 with
    coremap := fun j => if j = 0 then ⟨1, 10⟩ else ⟨0, 0⟩
    ptes := fun j => if j = 10 then ⟨11, 5⟩ else ⟨0, -1⟩ }

/-- As `oneFrameSim`, with entry 10 clean and already on swap at offset 5
(`frame = PG_VALID | PG_ONSWAP`). -/
def swappedFrameSim : Sim :=
  { emptySim 1 with
    coremap := fun j => if j = 0 then ⟨1, 10⟩ else ⟨0, 0⟩
    ptes := fun j => if j = 10 then ⟨9, 5⟩ else ⟨0, -1⟩ }

/-- Three frames: frame 0 in use by entry 10, frames 1 and 2 free. -/
def partSim : Sim :=
  { emptySim 3 with
    coremap := fun j => if j = 0 then ⟨1, 10⟩ else ⟨0, 0⟩
    ptes := fun j => if j = 10 then ⟨1, -1⟩ else ⟨0, -1⟩ }

/-- As `stdLayout`, with a directory of four entries and tables of three. -/
def tinyLayout : Layout :=
  { stdLayout with PTRS_PER_PGDIR := 4, PTRS_PER_PGTBL := 3 }

/-- A directory whose entry 1 is valid, with its table at address 4096, and
whose other entries are invalid; in the table, entry 0 was never touched, entry
1 is resident and dirty in frame 1, entry 2 is on swap at offset 7. -/
def dirSim : Sim :=
  { emptySim 2 with
    pgdir := fun j => if j = 1 then 4097 else 0
    ptes := fun j =>
      if j = 4096 + 16 then ⟨4099, -1⟩ else if j = 4096 + 32 then ⟨8, 7⟩ else ⟨0, -1⟩ }

/-- Two frames, both in use: frame 0 by entry 10 (resident in frame 0, clean),
frame 1 by entry 11 (resident in frame 1, dirty, on swap at offset 3); one
eviction has been made before, so `sampleEnv` evicts frame 1 next. -/
def twoFrameSim : Sim :=
  { emptySim 2 with
    evict_calls := 1
    coremap := fun j => if j = 0 then ⟨1, 10⟩ else if j = 1 then ⟨1, 11⟩ else ⟨0, 0⟩
    ptes := fun j => if j = 10 then ⟨1, -1⟩ else if j = 11 then ⟨4107, 3⟩ else ⟨0, -1⟩ }

/-- Two free frames and a physical memory whose bytes are all 255. -/
def staleMemSim : Sim :=
  { emptySim 2 with physmem := fun _ => 255 }

/-- A first-in-first-out policy (the `k`-th call evicts frame `k mod memsize`)
and a swap store that never fails: a page without an offset gets the number of
writes made so far, a page with an offset keeps it. -/
def sampleEnv : Env :=
  { evict_fcn := fun s => ((s.evict_calls % s.memsize : Nat) : Int)
    swap_pageout := fun s _ off => if off = -1 then (s.swap_log.length : Int) else off }

/-- As `sampleEnv`, with a swap store whose writes all fail. -/
def failingEnv : Env :=
  { evict_fcn := fun s => ((s.evict_calls % s.memsize : Nat) : Int)
    swap_pageout := fun _ _ _ => -1 }

/-! ### The scan of the core map -/

theorem scanFrom_eq_neg_one (c : Nat → Frame) (n : Nat) :
    ∀ i, scanFrom c i n = -1 ↔ ∀ j, i ≤ j → j < i + n → (c j).in_use ≠ 0 := by
  induction n with
  | zero => intro i; simp [scanFrom]; intro j h1 h2; omega
  | succ n ih =>
    intro i
    unfold scanFrom
    by_cases h : (c i).in_use = 0
    · simp only [h, if_true]
      constructor
      · intro hi; omega
      · intro hall; exact absurd h (hall i (le_refl _) (by omega))
    · simp only [h, if_false]
      rw [ih (i + 1)]
      constructor
      · intro hall j h1 h2
        by_cases hj : j = i
        · subst hj; exact h
        · exact hall j (by omega) (by omega)
      · intro hall j h1 h2
        exact hall j (by omega) (by omega)

theorem scanFrom_found (c : Nat → Frame) (n : Nat) :
    ∀ i, scanFrom c i n ≠ -1 →
      ∃ k : Nat, scanFrom c i n = (k : Int) ∧ i ≤ k ∧ k < i + n ∧ (c k).in_use = 0 ∧
        ∀ j, i ≤ j → j < k → (c j).in_use ≠ 0 := by
  induction n with
  | zero => intro i h; simp [scanFrom] at h
  | succ n ih =>
    intro i h
    unfold scanFrom at h ⊢
    by_cases h0 : (c i).in_use = 0
    · simp only [h0, if_true]
      exact ⟨i, rfl, le_refl _, by omega, h0, fun j h1 h2 => by omega⟩
    · simp only [h0, if_false] at h ⊢
      obtain ⟨k, hk, h1, h2, h3, h4⟩ := ih (i + 1) h
      refine ⟨k, hk, by omega, by omega, h3, ?_⟩
      intro j hj1 hj2
      by_cases hj : j = i
      · subst hj; exact h0
      · exact h4 j (by omega) hj2

theorem scanFree_eq_neg_one (s : Sim) :
    scanFree s = -1 ↔ ∀ j, j < s.memsize → (s.coremap j).in_use ≠ 0 := by
  unfold scanFree
  rw [scanFrom_eq_neg_one]
  constructor
  · intro h j hj; exact h j (Nat.zero_le _) (by omega)
  · intro h j _ hj; exact h j (by omega)

theorem scanFree_found (s : Sim) (h : scanFree s ≠ -1) :
    ∃ k : Nat, scanFree s = (k : Int) ∧ k < s.memsize ∧ (s.coremap k).in_use = 0 ∧
      ∀ j, j < k → (s.coremap j).in_use ≠ 0 := by
  obtain ⟨k, hk, _, h2, h3, h4⟩ := scanFrom_found s.coremap s.memsize 0 h
  exact ⟨k, hk, by omega, h3, fun j hj => h4 j (Nat.zero_le _) hj⟩

/-! ### The three ways through `allocate_frame` -/

theorem allocate_frame_free (P : Params) (E : Env) (s : Sim) (p : Nat)
    (h : scanFree s ≠ -1) :
    allocate_frame P E s p = finish s (scanFree s) p := by
  simp [allocate_frame, h]

theorem allocate_frame_undef (P : Params) (E : Env) (s : Sim) (p : Nat)
    (h : scanFree s = -1) (hr : E.evict_fcn s < 0 ∨ (s.memsize : Int) ≤ E.evict_fcn s) :
    allocate_frame P E s p = .undef := by
  simp [allocate_frame, h, hr]

theorem allocate_frame_evict (P : Params) (E : Env) (s : Sim) (p : Nat)
    (h : scanFree s = -1) (h0 : 0 ≤ E.evict_fcn s) (h1 : E.evict_fcn s < s.memsize) :
    allocate_frame P E s p =
      if needsPageout P (evictState P E s) (victimOf E s) then
        if pageoutRet P E s ≠ -1 then
          finish ((loggedState P E s).setSwapOff (victimOf E s) (pageoutRet P E s))
            (E.evict_fcn s) p
        else .exit (loggedState P E s)
      else finish (evictState P E s) (E.evict_fcn s) p := by
  have hr : ¬ (E.evict_fcn s < 0 ∨ (s.memsize : Int) ≤ E.evict_fcn s) := by omega
  simp only [allocate_frame, h, if_true, hr, if_false]
  rfl

/-! ### Bit masks -/

theorem testBit_lt_of_lt_two_pow (W d i : Nat) (hd : d < 2 ^ W) (h : d.testBit i = true) :
    i < W := by
  by_contra hc
  have hlt : d < 2 ^ i := lt_of_lt_of_le hd (Nat.pow_le_pow_right (by decide) (by omega))
  rw [Nat.testBit_lt_two_pow hlt] at h
  exact Bool.noConfusion h

/-- After `x & ~m` no bit of `m` is set. -/
theorem clearMask_and_self (P : Params) (x m : Nat) : clearMask P x m &&& m = 0 := by
  unfold clearMask
  by_cases hm : m < 2 ^ P.FRAME_BITS
  · apply Nat.eq_of_testBit_eq
    intro i
    have h : 2 ^ P.FRAME_BITS - 1 - m = 2 ^ P.FRAME_BITS - (m + 1) := by omega
    rw [h]
    simp only [Nat.testBit_and, Nat.testBit_two_pow_sub_succ hm, Nat.zero_testBit]
    cases x.testBit i <;> cases m.testBit i <;> simp
  · have h : 2 ^ P.FRAME_BITS - 1 - m = 0 := by omega
    rw [h]; simp

/-- The mask `x & ~m` leaves the bits of a disjoint mask `d` as they were. -/
theorem clearMask_and_disjoint (P : Params) (x m d : Nat) (hm : m < 2 ^ P.FRAME_BITS)
    (hd : d < 2 ^ P.FRAME_BITS) (hdis : m &&& d = 0) :
    clearMask P x m &&& d = x &&& d := by
  unfold clearMask
  apply Nat.eq_of_testBit_eq
  intro i
  have h : 2 ^ P.FRAME_BITS - 1 - m = 2 ^ P.FRAME_BITS - (m + 1) := by omega
  rw [h]
  simp only [Nat.testBit_and, Nat.testBit_two_pow_sub_succ hm]
  have h1 : (m &&& d).testBit i = false := by rw [hdis]; exact Nat.zero_testBit i
  rw [Nat.testBit_and] at h1
  by_cases hdi : d.testBit i = true
  · have hi := testBit_lt_of_lt_two_pow P.FRAME_BITS d i hd hdi
    simp only [hdi, Bool.and_true] at h1 ⊢
    simp [h1, hi]
  · simp only [Bool.not_eq_true] at hdi
    simp [hdi]

/-- A cleared flag stays cleared under a further `& ~m`. -/
theorem clearMask_keeps_zero (P : Params) (x m v : Nat) (h : x &&& v = 0) :
    clearMask P x m &&& v = 0 := by
  unfold clearMask
  rw [Nat.and_assoc, Nat.and_comm (2 ^ P.FRAME_BITS - 1 - m) v, ← Nat.and_assoc, h,
    Nat.zero_and]

/-! ### The state after lines 52-59 and after line 64 -/

theorem evictMark_ptes (P : Params) (s : Sim) (v : Nat) :
    (evictMark P s v).ptes =
      fun j => if j = v then { s.ptes v with frame := clearMask P (s.ptes v).frame P.PG_VALID }
        else s.ptes j := by
  unfold evictMark
  simp only [Sim.setFrame]
  split_ifs <;> rfl

theorem evictMark_frame (P : Params) (s : Sim) (v : Nat) :
    ((evictMark P s v).ptes v).frame = clearMask P (s.ptes v).frame P.PG_VALID := by
  rw [evictMark_ptes]; simp

theorem evictMark_swap_off (P : Params) (s : Sim) (v : Nat) :
    ((evictMark P s v).ptes v).swap_off = (s.ptes v).swap_off := by
  rw [evictMark_ptes]; simp

theorem evictMark_other (P : Params) (s : Sim) (v j : Nat) (h : j ≠ v) :
    (evictMark P s v).ptes j = s.ptes j := by
  rw [evictMark_ptes]; simp [h]

theorem evictMark_fields (P : Params) (s : Sim) (v : Nat) :
    (evictMark P s v).coremap = s.coremap ∧ (evictMark P s v).memsize = s.memsize ∧
    (evictMark P s v).evict_calls = s.evict_calls ∧
    (evictMark P s v).swap_log = s.swap_log ∧
    (evictMark P s v).hit_count = s.hit_count ∧
    (evictMark P s v).miss_count = s.miss_count ∧
    (evictMark P s v).ref_count = s.ref_count := by
  unfold evictMark
  simp only [Sim.setFrame]
  split_ifs <;> exact ⟨rfl, rfl, rfl, rfl, rfl, rfl, rfl⟩

/-- The counting of lines 57-59, read on the entry state (the flags are
disjoint, so clearing VALID first does not change the DIRTY test). -/
theorem evictMark_counts (P : Params) (hP : P.WF) (s : Sim) (v : Nat) :
    (flagSet s v P.PG_DIRTY →
      (evictMark P s v).evict_dirty_count = s.evict_dirty_count + 1 ∧
      (evictMark P s v).evict_clean_count = s.evict_clean_count) ∧
    (¬ flagSet s v P.PG_DIRTY →
      (evictMark P s v).evict_clean_count = s.evict_clean_count + 1 ∧
      (evictMark P s v).evict_dirty_count = s.evict_dirty_count) := by
  have hd : clearMask P (s.ptes v).frame P.PG_VALID &&& P.PG_DIRTY
      = (s.ptes v).frame &&& P.PG_DIRTY :=
    clearMask_and_disjoint P _ _ _ hP.valid_lt hP.dirty_lt hP.valid_dirty
  unfold evictMark flagSet
  simp only [Sim.setFrame, if_true, hd]
  constructor
  · intro h; rw [if_pos h]; exact ⟨rfl, rfl⟩
  · intro h; rw [if_neg h]; exact ⟨rfl, rfl⟩

/-- The test of line 62, read on the entry state. -/
theorem needsPageout_evictState (P : Params) (hP : P.WF) (E : Env) (s : Sim) :
    needsPageout P (evictState P E s) (victimOf E s) ↔
      (¬ flagSet s (victimOf E s) P.PG_ONSWAP ∨ flagSet s (victimOf E s) P.PG_DIRTY) := by
  unfold needsPageout evictState flagSet
  rw [evictMark_frame]
  simp only
  rw [clearMask_and_disjoint P _ _ _ hP.valid_lt hP.dirty_lt hP.valid_dirty,
    clearMask_and_disjoint P _ _ _ hP.valid_lt hP.onswap_lt hP.valid_onswap]
  simp

theorem evictState_coremap (P : Params) (E : Env) (s : Sim) :
    (evictState P E s).coremap = s.coremap ∧ (evictState P E s).memsize = s.memsize := by
  unfold evictState
  exact ⟨(evictMark_fields P _ _).1, (evictMark_fields P _ _).2.1⟩

theorem loggedState_coremap (P : Params) (E : Env) (s : Sim) :
    (loggedState P E s).coremap = s.coremap ∧ (loggedState P E s).memsize = s.memsize := by
  unfold loggedState pageoutState
  simp only [Sim.setFrame]
  exact evictState_coremap P E s

theorem setCoremap_spec (s : Sim) (fn p : Nat) :
    (s.setCoremap fn p).memsize = s.memsize ∧
    ((s.setCoremap fn p).coremap fn).in_use = 1 ∧
    ((s.setCoremap fn p).coremap fn).pte = p ∧
    ∀ j, j ≠ fn → (s.setCoremap fn p).coremap j = s.coremap j := by
  refine ⟨rfl, ?_, ?_, ?_⟩
  · simp [Sim.setCoremap]
  · simp [Sim.setCoremap]
  · intro j hj; simp [Sim.setCoremap, hj]

/-! ### Frame allocation: the contract -/

/-- C1. When the replacement policy, if consulted, returns an index inside the
core map and the swap write, if one is needed, does not fail, `allocate_frame`
returns a frame number `fn` with `0 ≤ fn < memsize`; afterwards `coremap[fn]` is
in use (`in_use` is 1) and refers to the caller's entry `p`, and every other
core-map entry is as before. -/
theorem allocate_frame_contract (P : Params) (E : Env) (s : Sim) (p : Nat)
    (hpol : scanFree s = -1 → 0 ≤ E.evict_fcn s ∧ E.evict_fcn s < s.memsize)
    (hsw : scanFree s = -1 → needsPageout P (evictState P E s) (victimOf E s) →
      pageoutRet P E s ≠ -1) :
    ∃ fn s', allocate_frame P E s p = .ret fn s' ∧ 0 ≤ fn ∧ fn < s.memsize ∧
      s'.memsize = s.memsize ∧
      (s'.coremap fn.toNat).in_use = 1 ∧ (s'.coremap fn.toNat).pte = p ∧
      ∀ j, j ≠ fn.toNat → s'.coremap j = s.coremap j := by
  by_cases h : scanFree s = -1
  · obtain ⟨h0, h1⟩ := hpol h
    rw [allocate_frame_evict P E s p h h0 h1]
    by_cases hn : needsPageout P (evictState P E s) (victimOf E s)
    · rw [if_pos hn, if_pos (hsw h hn)]
      refine ⟨E.evict_fcn s, _, rfl, h0, h1, ?_⟩
      have hc := setCoremap_spec
        ((loggedState P E s).setSwapOff (victimOf E s) (pageoutRet P E s))
        (E.evict_fcn s).toNat p
      have hl := loggedState_coremap P E s
      refine ⟨?_, hc.2.1, hc.2.2.1, ?_⟩
      · rw [hc.1]; exact hl.2
      · intro j hj; rw [hc.2.2.2 j hj]; exact congrFun hl.1 j
    · rw [if_neg hn]
      refine ⟨E.evict_fcn s, _, rfl, h0, h1, ?_⟩
      have hc := setCoremap_spec (evictState P E s) (E.evict_fcn s).toNat p
      have hl := evictState_coremap P E s
      refine ⟨?_, hc.2.1, hc.2.2.1, ?_⟩
      · rw [hc.1]; exact hl.2
      · intro j hj; rw [hc.2.2.2 j hj]; exact congrFun hl.1 j
  · obtain ⟨k, hk, hlt, _, _⟩ := scanFree_found s h
    rw [allocate_frame_free P E s p h, hk]
    have hc := setCoremap_spec s k p
    exact ⟨(k : Int), _, rfl, by omega, by omega, hc.1, hc.2.1, hc.2.2.1, hc.2.2.2⟩

/-- C2. When some core-map entry below `memsize` is not in use,
`allocate_frame` returns the lowest such index (every index below the result is
in use); `evict_fcn` is not called, and the outcome is the same whatever the
replacement policy and the swap store are. -/
theorem allocate_frame_lowest_free (P : Params) (E : Env) (s : Sim) (p : Nat)
    (hfree : ∃ i, i < s.memsize ∧ (s.coremap i).in_use = 0) :
    ∃ (k : Nat) (s' : Sim), allocate_frame P E s p = .ret (k : Int) s' ∧
      k < s.memsize ∧ (s.coremap k).in_use = 0 ∧
      (∀ j, j < k → (s.coremap j).in_use ≠ 0) ∧
      s'.evict_calls = s.evict_calls ∧
      ∀ E', allocate_frame P E' s p = .ret (k : Int) s' := by
  have h : scanFree s ≠ -1 := by
    intro hc
    obtain ⟨i, hi, h0⟩ := hfree
    exact (scanFree_eq_neg_one s).1 hc i hi h0
  obtain ⟨k, hk, hlt, h0, hlow⟩ := scanFree_found s h
  refine ⟨k, s.setCoremap k p, ?_, hlt, h0, hlow, rfl, ?_⟩
  · rw [allocate_frame_free P E s p h, hk]; rfl
  · intro E'
    rw [allocate_frame_free P E' s p h, hk]; rfl

/-! ### Eviction: counters, write-back -/

theorem pageoutState_frame (P : Params) (E : Env) (s : Sim) :
    ((pageoutState P E s).ptes (victimOf E s)).frame =
      clearMask P (clearMask P (s.ptes (victimOf E s)).frame P.PG_VALID) P.PG_DIRTY := by
  unfold pageoutState
  simp only [Sim.setFrame, if_true]
  unfold evictState
  rw [evictMark_frame]

theorem evictState_frame (P : Params) (E : Env) (s : Sim) :
    ((evictState P E s).ptes (victimOf E s)).frame =
      clearMask P (s.ptes (victimOf E s)).frame P.PG_VALID := by
  unfold evictState
  rw [evictMark_frame]

theorem evictState_swap_off (P : Params) (E : Env) (s : Sim) :
    ((evictState P E s).ptes (victimOf E s)).swap_off = (s.ptes (victimOf E s)).swap_off := by
  unfold evictState
  rw [evictMark_swap_off]

theorem evictState_swap_log (P : Params) (E : Env) (s : Sim) :
    (evictState P E s).swap_log = s.swap_log := by
  unfold evictState
  exact (evictMark_fields P _ _).2.2.2.1

theorem loggedState_swap_log (P : Params) (E : Env) (s : Sim) :
    (loggedState P E s).swap_log =
      s.swap_log ++ [⟨victimOf E s, pageoutFrame P E s, (s.ptes (victimOf E s)).swap_off⟩] := by
  unfold loggedState
  simp only [List.append_cancel_right_eq]
  unfold pageoutState
  simp only [Sim.setFrame]
  exact evictState_swap_log P E s

theorem evictState_counts (P : Params) (hP : P.WF) (E : Env) (s : Sim) :
    (flagSet s (victimOf E s) P.PG_DIRTY →
      (evictState P E s).evict_dirty_count = s.evict_dirty_count + 1 ∧
      (evictState P E s).evict_clean_count = s.evict_clean_count) ∧
    (¬ flagSet s (victimOf E s) P.PG_DIRTY →
      (evictState P E s).evict_clean_count = s.evict_clean_count + 1 ∧
      (evictState P E s).evict_dirty_count = s.evict_dirty_count) := by
  have h := evictMark_counts P hP { s with evict_calls := s.evict_calls + 1 } (victimOf E s)
  exact h

theorem append_singleton_ne {α : Type} (l : List α) (x : α) : l ++ [x] ≠ l := by
  intro h
  have := congrArg List.length h
  simp at this

/-- C3. A call that finds no free frame (the policy returning an index inside
the core map) adds one to exactly one of the two eviction counters and leaves
the other as it was: `evict_dirty_count` when the victim had DIRTY set on entry,
`evict_clean_count` otherwise; and the victim has VALID clear afterwards.  This
holds for the state the call returns with and for the state it exits with. -/
theorem allocate_frame_evict_counts (P : Params) (hP : P.WF) (E : Env) (s : Sim) (p : Nat)
    (hfull : ∀ i, i < s.memsize → (s.coremap i).in_use ≠ 0)
    (hpol : 0 ≤ E.evict_fcn s ∧ E.evict_fcn s < s.memsize) :
    ∃ s', (allocate_frame P E s p = .ret (E.evict_fcn s) s' ∨
        allocate_frame P E s p = .exit s') ∧
      (flagSet s (victimOf E s) P.PG_DIRTY →
        s'.evict_dirty_count = s.evict_dirty_count + 1 ∧
        s'.evict_clean_count = s.evict_clean_count) ∧
      (¬ flagSet s (victimOf E s) P.PG_DIRTY →
        s'.evict_clean_count = s.evict_clean_count + 1 ∧
        s'.evict_dirty_count = s.evict_dirty_count) ∧
      (s'.evict_dirty_count = s.evict_dirty_count + 1 ↔ flagSet s (victimOf E s) P.PG_DIRTY) ∧
      ¬ flagSet s' (victimOf E s) P.PG_VALID := by
  have h := (scanFree_eq_neg_one s).2 hfull
  have hc := evictState_counts P hP E s
  have hiff : (evictState P E s).evict_dirty_count = s.evict_dirty_count + 1 ↔
      flagSet s (victimOf E s) P.PG_DIRTY := by
    constructor
    · intro he
      by_contra hn
      have := (hc.2 hn).2
      omega
    · intro hd; exact (hc.1 hd).1
  have hv1 : ((evictState P E s).ptes (victimOf E s)).frame &&& P.PG_VALID = 0 := by
    rw [evictState_frame]; exact clearMask_and_self P _ _
  have hv2 : ((pageoutState P E s).ptes (victimOf E s)).frame &&& P.PG_VALID = 0 := by
    rw [pageoutState_frame]
    exact clearMask_keeps_zero P _ _ _ (clearMask_and_self P _ _)
  rw [allocate_frame_evict P E s p h hpol.1 hpol.2]
  by_cases hn : needsPageout P (evictState P E s) (victimOf E s)
  · rw [if_pos hn]
    by_cases hr : pageoutRet P E s ≠ -1
    · rw [if_pos hr]
      refine ⟨_, Or.inl rfl, hc.1, hc.2, hiff, ?_⟩
      intro hf
      apply hf
      simp only [Sim.setCoremap, Sim.setSwapOff, if_true]
      exact hv2
    · rw [if_neg hr]
      refine ⟨_, Or.inr rfl, hc.1, hc.2, hiff, ?_⟩
      intro hf
      exact hf hv2
  · rw [if_neg hn]
    refine ⟨_, Or.inl rfl, hc.1, hc.2, hiff, ?_⟩
    intro hf
    exact hf hv1

/-- C4. In an eviction (no free frame, the policy returning an index inside the
core map) `swap_pageout` is called exactly when the victim has ON_SWAP clear or
DIRTY set on entry: then the log grows by that one call; if the call does not
return `-1`, `allocate_frame` returns, the victim has DIRTY clear and its
`swap_off` is the returned offset.  Otherwise the log is unchanged,
`allocate_frame` returns, and the victim's `swap_off` is as on entry. -/
theorem allocate_frame_writeback (P : Params) (hP : P.WF) (E : Env) (s : Sim) (p : Nat)
    (hfull : ∀ i, i < s.memsize → (s.coremap i).in_use ≠ 0)
    (hpol : 0 ≤ E.evict_fcn s ∧ E.evict_fcn s < s.memsize) :
    ∃ s', (allocate_frame P E s p = .ret (E.evict_fcn s) s' ∨
        allocate_frame P E s p = .exit s') ∧
      ((¬ flagSet s (victimOf E s) P.PG_ONSWAP ∨ flagSet s (victimOf E s) P.PG_DIRTY) ↔
        s'.swap_log = s.swap_log ++
          [⟨victimOf E s, pageoutFrame P E s, (s.ptes (victimOf E s)).swap_off⟩]) ∧
      (¬ (¬ flagSet s (victimOf E s) P.PG_ONSWAP ∨ flagSet s (victimOf E s) P.PG_DIRTY) ↔
        s'.swap_log = s.swap_log) ∧
      ((¬ flagSet s (victimOf E s) P.PG_ONSWAP ∨ flagSet s (victimOf E s) P.PG_DIRTY) →
        pageoutRet P E s ≠ -1 →
        allocate_frame P E s p = .ret (E.evict_fcn s) s' ∧
        ¬ flagSet s' (victimOf E s) P.PG_DIRTY ∧
        (s'.ptes (victimOf E s)).swap_off = pageoutRet P E s) ∧
      (¬ (¬ flagSet s (victimOf E s) P.PG_ONSWAP ∨ flagSet s (victimOf E s) P.PG_DIRTY) →
        allocate_frame P E s p = .ret (E.evict_fcn s) s' ∧
        (s'.ptes (victimOf E s)).swap_off = (s.ptes (victimOf E s)).swap_off) := by
  have h := (scanFree_eq_neg_one s).2 hfull
  have hcond := needsPageout_evictState P hP E s
  have hd2 : ((pageoutState P E s).ptes (victimOf E s)).frame &&& P.PG_DIRTY = 0 := by
    rw [pageoutState_frame]; exact clearMask_and_self P _ _
  have hlog := loggedState_swap_log P E s
  have hlog0 := evictState_swap_log P E s
  rw [allocate_frame_evict P E s p h hpol.1 hpol.2]
  by_cases hn : needsPageout P (evictState P E s) (victimOf E s)
  · have hc := hcond.1 hn
    rw [if_pos hn]
    by_cases hr : pageoutRet P E s ≠ -1
    · rw [if_pos hr]
      refine ⟨_, Or.inl rfl, ⟨fun _ => hlog, fun _ => hc⟩, ⟨fun hx => absurd hc hx, ?_⟩,
        ?_, fun hx => absurd hc hx⟩
      · intro he
        have he' : (loggedState P E s).swap_log = s.swap_log := he
        rw [hlog] at he'
        exact absurd he' (append_singleton_ne _ _)
      · intro _ _
        refine ⟨rfl, ?_, ?_⟩
        · intro hf
          apply hf
          simp only [Sim.setCoremap, Sim.setSwapOff, if_true]
          exact hd2
        · simp [finish, Sim.setCoremap, Sim.setSwapOff]
    · rw [if_neg hr]
      refine ⟨_, Or.inr rfl, ⟨fun _ => hlog, fun _ => hc⟩, ⟨fun hx => absurd hc hx, ?_⟩,
        fun _ hx => absurd hx hr, fun hx => absurd hc hx⟩
      intro he
      rw [hlog] at he
      exact absurd he (append_singleton_ne _ _)
  · have hc : ¬ (¬ flagSet s (victimOf E s) P.PG_ONSWAP ∨ flagSet s (victimOf E s) P.PG_DIRTY) :=
      fun hx => hn (hcond.2 hx)
    rw [if_neg hn]
    refine ⟨_, Or.inl rfl, ⟨fun hx => absurd hx hc, ?_⟩, ⟨fun _ => hlog0, fun _ => hc⟩,
      fun hx => absurd hx hc, fun _ => ⟨rfl, ?_⟩⟩
    · intro he
      have he' : (evictState P E s).swap_log = s.swap_log ++
          [⟨victimOf E s, pageoutFrame P E s, (s.ptes (victimOf E s)).swap_off⟩] := he
      rw [hlog0] at he'
      exact absurd he'.symm (append_singleton_ne _ _)
    · exact evictState_swap_off P E s

/-! ### The ON_SWAP flag is never set -/

/-- An eviction leaves the ON_SWAP bits of the victim as they were on entry:
no statement of `allocate_frame` sets `PG_ONSWAP`. -/
theorem evict_onswap_unchanged (P : Params) (hP : P.WF) (E : Env) (s : Sim) (p : Nat)
    (hfull : ∀ i, i < s.memsize → (s.coremap i).in_use ≠ 0)
    (hpol : 0 ≤ E.evict_fcn s ∧ E.evict_fcn s < s.memsize)
    (s' : Sim) (hret : (allocate_frame P E s p).sim? = some s') :
    (s'.ptes (victimOf E s)).frame &&& P.PG_ONSWAP =
      (s.ptes (victimOf E s)).frame &&& P.PG_ONSWAP := by
  have h := (scanFree_eq_neg_one s).2 hfull
  have h1 : ((evictState P E s).ptes (victimOf E s)).frame &&& P.PG_ONSWAP =
      (s.ptes (victimOf E s)).frame &&& P.PG_ONSWAP := by
    rw [evictState_frame]
    exact clearMask_and_disjoint P _ _ _ hP.valid_lt hP.onswap_lt hP.valid_onswap
  have h2 : ((pageoutState P E s).ptes (victimOf E s)).frame &&& P.PG_ONSWAP =
      (s.ptes (victimOf E s)).frame &&& P.PG_ONSWAP := by
    rw [pageoutState_frame,
      clearMask_and_disjoint P _ _ _ hP.dirty_lt hP.onswap_lt hP.dirty_onswap]
    exact clearMask_and_disjoint P _ _ _ hP.valid_lt hP.onswap_lt hP.valid_onswap
  rw [allocate_frame_evict P E s p h hpol.1 hpol.2] at hret
  by_cases hn : needsPageout P (evictState P E s) (victimOf E s)
  · rw [if_pos hn] at hret
    by_cases hr : pageoutRet P E s ≠ -1
    · rw [if_pos hr] at hret
      simp only [finish, Outcome.sim?, Option.some.injEq] at hret
      subst hret
      simp only [Sim.setCoremap, Sim.setSwapOff, if_true]
      exact h2
    · rw [if_neg hr] at hret
      simp only [Outcome.sim?, Option.some.injEq] at hret
      subst hret
      exact h2
  · rw [if_neg hn] at hret
    simp only [finish, Outcome.sim?, Option.some.injEq] at hret
    subst hret
    exact h1

/-- C5, the code at the failing input.  One frame, in use by entry 10, which is
resident, clean and has never been on swap; `allocate_frame(11)` evicts it and
the swap write succeeds with offset 0.  The call returns frame 0 and entry 10
ends with `frame = 0` and `swap_off = 0`: VALID is clear and the offset is not
`INVALID_SWAP`, but ON_SWAP is still clear. -/
theorem allocate_frame_onswap_not_set :
    ¬ flagSet oneFrameSim 10 stdParams.PG_ONSWAP ∧
    (allocate_frame stdParams sampleEnv oneFrameSim 11).fn? = some 0 ∧
    ((allocate_frame stdParams sampleEnv oneFrameSim 11).sim?.map fun s' => s'.swap_log)
      = some [⟨10, 0, -1⟩] ∧
    ((allocate_frame stdParams sampleEnv oneFrameSim 11).sim?.map fun s' => s'.ptes 10)
      = some ⟨0, 0⟩ ∧
    ((allocate_frame stdParams sampleEnv oneFrameSim 11).sim?.map fun s' =>
      decide (flagSet s' 10 stdParams.PG_ONSWAP)) = some false ∧
    ((allocate_frame stdParams sampleEnv oneFrameSim 11).sim?.map fun s' =>
      decide ((s'.ptes 10).swap_off ≠ stdParams.INVALID_SWAP)) = some true := by
  decide

/-- C6, the code at the failing input.  One frame, free; `allocate_frame` is
called for entries 10, 11, 10, 11 in turn.  Entry 10 never has DIRTY set (not
before any call, not at the end), yet `swap_pageout` is called for it twice: by
the second call (with no offset yet) and again by the fourth (with the offset
the first write returned). -/
theorem allocate_frame_clean_page_written_twice :
    (∀ k, k ≤ 4 →
      ((allocRun stdParams sampleEnv (emptySim 1) ([10, 11, 10, 11].take k)).map fun s =>
        decide (flagSet s 10 stdParams.PG_DIRTY)) = some false) ∧
    ((allocRun stdParams sampleEnv (emptySim 1) [10, 11, 10, 11]).map fun s => s.swap_log)
      = some [⟨10, 0, -1⟩, ⟨11, 0, -1⟩, ⟨10, 0, 0⟩] ∧
    ((allocRun stdParams sampleEnv (emptySim 1) [10, 11, 10, 11]).map fun s =>
      (s.swap_log.filter fun c => c.victim = 10).length) = some 2 := by
  decide

/-! ### The eviction counters over a run of calls -/

theorem evictMark_sum (P : Params) (s : Sim) (v : Nat) :
    (evictMark P s v).evict_clean_count + (evictMark P s v).evict_dirty_count =
      s.evict_clean_count + s.evict_dirty_count + 1 := by
  unfold evictMark
  simp only [Sim.setFrame]
  split_ifs <;> simp only <;> omega

/-- One returning call: the sum of the two eviction counters grows by one when
the scan found no free frame, and not at all otherwise. -/
theorem allocate_frame_sum (P : Params) (E : Env) (s : Sim) (p : Nat) (fn : Int) (s' : Sim)
    (hret : allocate_frame P E s p = .ret fn s') :
    s'.evict_clean_count + s'.evict_dirty_count =
      s.evict_clean_count + s.evict_dirty_count + (if scanFree s = -1 then 1 else 0) := by
  by_cases h : scanFree s = -1
  · rw [if_pos h]
    by_cases hr : E.evict_fcn s < 0 ∨ (s.memsize : Int) ≤ E.evict_fcn s
    · rw [allocate_frame_undef P E s p h hr] at hret
      exact Outcome.noConfusion hret
    · have h0 : 0 ≤ E.evict_fcn s := by omega
      have h1 : E.evict_fcn s < s.memsize := by omega
      have hsum : (evictState P E s).evict_clean_count + (evictState P E s).evict_dirty_count
          = s.evict_clean_count + s.evict_dirty_count + 1 :=
        evictMark_sum P { s with evict_calls := s.evict_calls + 1 } (victimOf E s)
      rw [allocate_frame_evict P E s p h h0 h1] at hret
      by_cases hn : needsPageout P (evictState P E s) (victimOf E s)
      · rw [if_pos hn] at hret
        by_cases hw : pageoutRet P E s ≠ -1
        · rw [if_pos hw] at hret
          simp only [finish, Outcome.ret.injEq] at hret
          rw [← hret.2]
          exact hsum
        · rw [if_neg hw] at hret
          exact Outcome.noConfusion hret
      · rw [if_neg hn] at hret
        simp only [finish, Outcome.ret.injEq] at hret
        rw [← hret.2]
        exact hsum
  · rw [if_neg h]
    rw [allocate_frame_free P E s p h] at hret
    simp only [finish, Outcome.ret.injEq] at hret
    rw [← hret.2]
    simp [Sim.setCoremap]

theorem allocRun_sum (P : Params) (E : Env) (ps : List Nat) :
    ∀ (s s' : Sim), allocRun P E s ps = some s' →
      s'.evict_clean_count + s'.evict_dirty_count =
        s.evict_clean_count + s.evict_dirty_count + (noFreeCalls P E s ps : Int) := by
  induction ps with
  | nil =>
    intro s s' h
    simp only [allocRun, Option.some.injEq] at h
    subst h
    simp [noFreeCalls]
  | cons p ps ih =>
    intro s s' h
    unfold allocRun at h
    unfold noFreeCalls
    cases hc : allocate_frame P E s p with
    | ret fn s1 =>
      rw [hc] at h
      simp only at h ⊢
      have h1 := allocate_frame_sum P E s p fn s1 hc
      have h2 := ih s1 s' h
      rw [h2, h1]
      split_ifs <;> push_cast <;> omega
    | exit s1 => rw [hc] at h; exact Option.noConfusion h
    | undef => rw [hc] at h; exact Option.noConfusion h

/-- C7. Starting with both eviction counters at zero, after a run of calls of
`allocate_frame` that all return, `evict_clean_count + evict_dirty_count` is the
number of those calls that found no free frame in the core map; and a call that
finds a free frame returns with both counters as they were. -/
theorem evict_counters_sum (P : Params) (E : Env) (s : Sim) (ps : List Nat) (s' : Sim)
    (hclean : s.evict_clean_count = 0) (hdirty : s.evict_dirty_count = 0)
    (hrun : allocRun P E s ps = some s') :
    s'.evict_clean_count + s'.evict_dirty_count = (noFreeCalls P E s ps : Int) ∧
    ∀ (t : Sim) (p : Nat), scanFree t ≠ -1 →
      ∃ fn t', allocate_frame P E t p = .ret fn t' ∧
        t'.evict_clean_count = t.evict_clean_count ∧
        t'.evict_dirty_count = t.evict_dirty_count := by
  constructor
  · rw [allocRun_sum P E ps s s' hrun, hclean, hdirty]; simp
  · intro t p ht
    exact ⟨scanFree t, t.setCoremap (scanFree t).toNat p, allocate_frame_free P E t p ht,
      rfl, rfl⟩

/-! ### Termination with an error -/

/-- C8. With a policy that returns an index inside the core map whenever it is
consulted, `allocate_frame` calls `exit` exactly when no frame is free, the
victim needs write-back (ON_SWAP clear or DIRTY set on entry) and `swap_pageout`
returns `-1`; in every other case it returns a frame number. -/
theorem allocate_frame_exit_iff (P : Params) (hP : P.WF) (E : Env) (s : Sim) (p : Nat)
    (hpol : (∀ i, i < s.memsize → (s.coremap i).in_use ≠ 0) →
      0 ≤ E.evict_fcn s ∧ E.evict_fcn s < s.memsize) :
    ((∃ s', allocate_frame P E s p = .exit s') ↔
      ((∀ i, i < s.memsize → (s.coremap i).in_use ≠ 0) ∧
        (¬ flagSet s (victimOf E s) P.PG_ONSWAP ∨ flagSet s (victimOf E s) P.PG_DIRTY) ∧
        pageoutRet P E s = -1)) ∧
    (¬ ((∀ i, i < s.memsize → (s.coremap i).in_use ≠ 0) ∧
        (¬ flagSet s (victimOf E s) P.PG_ONSWAP ∨ flagSet s (victimOf E s) P.PG_DIRTY) ∧
        pageoutRet P E s = -1) →
      ∃ fn s', allocate_frame P E s p = .ret fn s') := by
  have hcond := needsPageout_evictState P hP E s
  by_cases h : scanFree s = -1
  · have hfull := (scanFree_eq_neg_one s).1 h
    obtain ⟨h0, h1⟩ := hpol hfull
    rw [allocate_frame_evict P E s p h h0 h1]
    by_cases hn : needsPageout P (evictState P E s) (victimOf E s)
    · rw [if_pos hn]
      by_cases hw : pageoutRet P E s ≠ -1
      · rw [if_pos hw]
        refine ⟨⟨?_, fun hx => absurd hx.2.2 hw⟩, fun _ => ⟨_, _, rfl⟩⟩
        rintro ⟨s', hs'⟩
        exact Outcome.noConfusion hs'
      · rw [if_neg hw]
        have hw' : pageoutRet P E s = -1 := by
          by_contra hx; exact hw hx
        refine ⟨⟨fun _ => ⟨hfull, hcond.1 hn, hw'⟩, fun _ => ⟨_, rfl⟩⟩, ?_⟩
        intro hx
        exact absurd ⟨hfull, hcond.1 hn, hw'⟩ hx
    · rw [if_neg hn]
      refine ⟨⟨?_, fun hx => absurd (hcond.2 hx.2.1) hn⟩, fun _ => ⟨_, _, rfl⟩⟩
      rintro ⟨s', hs'⟩
      exact Outcome.noConfusion hs'
  · rw [allocate_frame_free P E s p h]
    have hnf : ¬ (∀ i, i < s.memsize → (s.coremap i).in_use ≠ 0) :=
      fun hx => h ((scanFree_eq_neg_one s).2 hx)
    refine ⟨⟨?_, fun hx => absurd hx.1 hnf⟩, fun _ => ⟨_, _, rfl⟩⟩
    rintro ⟨s', hs'⟩
    exact Outcome.noConfusion hs'

/-! ### The translator `find_physpage` -/

/-- C9, the code on every input.  A call of `find_physpage` leaves `ref_count`
as it was (the body of the function is empty), whatever the address and the
access type; in particular on the first reference `find_physpage(0, 'L')` of a
run `ref_count` is still 0 afterwards. -/
theorem find_physpage_ref_count_unchanged :
    (∀ (s : Sim) (vaddr : Nat) (type : Char),
      (find_physpage s vaddr type).2.ref_count = s.ref_count) ∧
    (find_physpage (emptySim 2) 0 'L').2.ref_count = 0 := by
  exact ⟨fun _ _ _ => rfl, rfl⟩

/-- C10, the code on every input.  A call of `find_physpage` changes nothing:
`miss_count`, every page-table entry and every core-map entry are as before and
`allocate_frame` is not called, so an entry that is invalid and not on swap is
still invalid afterwards; in particular after `find_physpage(0, 'S')` on the
initial state `miss_count` is 0, entry 0 has `frame = 0` and frame 0 is free. -/
theorem find_physpage_miss_unchanged :
    (∀ (s : Sim) (vaddr : Nat) (type : Char),
      (find_physpage s vaddr type).1 = none ∧
      (find_physpage s vaddr type).2.miss_count = s.miss_count ∧
      (find_physpage s vaddr type).2.ptes = s.ptes ∧
      (find_physpage s vaddr type).2.coremap = s.coremap ∧
      (find_physpage s vaddr type).2.evict_calls = s.evict_calls) ∧
    (find_physpage (emptySim 2) 0 'S').2.miss_count = 0 ∧
    ((find_physpage (emptySim 2) 0 'S').2.ptes 0).frame = 0 ∧
    ((find_physpage (emptySim 2) 0 'S').2.coremap 0).in_use = 0 := by
  exact ⟨fun _ _ _ => ⟨rfl, rfl, rfl, rfl, rfl⟩, rfl, rfl, rfl⟩

/-! ### The theorems at concrete inputs -/

theorem stdParams_wf : stdParams.WF := by
  constructor <;> decide

/-- C1 at `oneFrameSim`: the only frame is in use, the policy returns 0, the
victim is written out with success. -/
theorem allocate_frame_contract_witness :
    scanFree oneFrameSim = -1 ∧
    (0 ≤ sampleEnv.evict_fcn oneFrameSim ∧
      sampleEnv.evict_fcn oneFrameSim < oneFrameSim.memsize) ∧
    pageoutRet stdParams sampleEnv oneFrameSim ≠ -1 ∧
    ∃ fn s', allocate_frame stdParams sampleEnv oneFrameSim 11 = .ret fn s' ∧ 0 ≤ fn ∧
      fn < oneFrameSim.memsize ∧ s'.memsize = oneFrameSim.memsize ∧
      (s'.coremap fn.toNat).in_use = 1 ∧ (s'.coremap fn.toNat).pte = 11 ∧
      ∀ j, j ≠ fn.toNat → s'.coremap j = oneFrameSim.coremap j :=
  ⟨by decide, by decide, by decide,
    allocate_frame_contract stdParams sampleEnv oneFrameSim 11 (fun _ => by decide)
      (fun _ _ => by decide)⟩

/-- C2 at `partSim`: frame 0 is in use, frames 1 and 2 are free. -/
theorem allocate_frame_lowest_free_witness :
    (∃ i, i < partSim.memsize ∧ (partSim.coremap i).in_use = 0) ∧
    (allocate_frame stdParams sampleEnv partSim 11).fn? = some 1 ∧
    ∃ (k : Nat) (s' : Sim), allocate_frame stdParams sampleEnv partSim 11 = .ret (k : Int) s' ∧
      k < partSim.memsize ∧ (partSim.coremap k).in_use = 0 ∧
      (∀ j, j < k → (partSim.coremap j).in_use ≠ 0) ∧
      s'.evict_calls = partSim.evict_calls ∧
      ∀ E', allocate_frame stdParams E' partSim 11 = .ret (k : Int) s' :=
  ⟨⟨1, by decide, by decide⟩, by decide,
    allocate_frame_lowest_free stdParams sampleEnv partSim 11 ⟨1, by decide, by decide⟩⟩

/-- C3 at `dirtyFrameSim`: the victim is dirty. -/
theorem allocate_frame_evict_counts_witness :
    stdParams.WF ∧
    (∀ i, i < dirtyFrameSim.memsize → (dirtyFrameSim.coremap i).in_use ≠ 0) ∧
    (0 ≤ sampleEnv.evict_fcn dirtyFrameSim ∧
      sampleEnv.evict_fcn dirtyFrameSim < dirtyFrameSim.memsize) ∧
    flagSet dirtyFrameSim (victimOf sampleEnv dirtyFrameSim) stdParams.PG_DIRTY ∧
    ∃ s', (allocate_frame stdParams sampleEnv dirtyFrameSim 11 =
          .ret (sampleEnv.evict_fcn dirtyFrameSim) s' ∨
        allocate_frame stdParams sampleEnv dirtyFrameSim 11 = .exit s') ∧
      (flagSet dirtyFrameSim (victimOf sampleEnv dirtyFrameSim) stdParams.PG_DIRTY →
        s'.evict_dirty_count = dirtyFrameSim.evict_dirty_count + 1 ∧
        s'.evict_clean_count = dirtyFrameSim.evict_clean_count) ∧
      (¬ flagSet dirtyFrameSim (victimOf sampleEnv dirtyFrameSim) stdParams.PG_DIRTY →
        s'.evict_clean_count = dirtyFrameSim.evict_clean_count + 1 ∧
        s'.evict_dirty_count = dirtyFrameSim.evict_dirty_count) ∧
      (s'.evict_dirty_count = dirtyFrameSim.evict_dirty_count + 1 ↔
        flagSet dirtyFrameSim (victimOf sampleEnv dirtyFrameSim) stdParams.PG_DIRTY) ∧
      ¬ flagSet s' (victimOf sampleEnv dirtyFrameSim) stdParams.PG_VALID :=
  ⟨stdParams_wf, by decide, by decide, by decide,
    allocate_frame_evict_counts stdParams stdParams_wf sampleEnv dirtyFrameSim 11
      (by decide) (by decide)⟩

/-- C4 at `swappedFrameSim`: the victim is on swap and clean, so nothing is
written and its offset stays 5. -/
theorem allocate_frame_writeback_witness :
    stdParams.WF ∧
    (∀ i, i < swappedFrameSim.memsize → (swappedFrameSim.coremap i).in_use ≠ 0) ∧
    (0 ≤ sampleEnv.evict_fcn swappedFrameSim ∧
      sampleEnv.evict_fcn swappedFrameSim < swappedFrameSim.memsize) ∧
    ((allocate_frame stdParams sampleEnv swappedFrameSim 11).sim?.map fun s' =>
      (s'.swap_log, (s'.ptes 10).swap_off)) = some ([], 5) ∧
    ∃ s', (allocate_frame stdParams sampleEnv swappedFrameSim 11 =
          .ret (sampleEnv.evict_fcn swappedFrameSim) s' ∨
        allocate_frame stdParams sampleEnv swappedFrameSim 11 = .exit s') ∧
      ((¬ flagSet swappedFrameSim (victimOf sampleEnv swappedFrameSim) stdParams.PG_ONSWAP ∨
          flagSet swappedFrameSim (victimOf sampleEnv swappedFrameSim) stdParams.PG_DIRTY) ↔
        s'.swap_log = swappedFrameSim.swap_log ++
          [⟨victimOf sampleEnv swappedFrameSim, pageoutFrame stdParams sampleEnv swappedFrameSim,
            (swappedFrameSim.ptes (victimOf sampleEnv swappedFrameSim)).swap_off⟩]) ∧
      (¬ (¬ flagSet swappedFrameSim (victimOf sampleEnv swappedFrameSim) stdParams.PG_ONSWAP ∨
          flagSet swappedFrameSim (victimOf sampleEnv swappedFrameSim) stdParams.PG_DIRTY) ↔
        s'.swap_log = swappedFrameSim.swap_log) ∧
      ((¬ flagSet swappedFrameSim (victimOf sampleEnv swappedFrameSim) stdParams.PG_ONSWAP ∨
          flagSet swappedFrameSim (victimOf sampleEnv swappedFrameSim) stdParams.PG_DIRTY) →
        pageoutRet stdParams sampleEnv swappedFrameSim ≠ -1 →
        allocate_frame stdParams sampleEnv swappedFrameSim 11 =
          .ret (sampleEnv.evict_fcn swappedFrameSim) s' ∧
        ¬ flagSet s' (victimOf sampleEnv swappedFrameSim) stdParams.PG_DIRTY ∧
        (s'.ptes (victimOf sampleEnv swappedFrameSim)).swap_off =
          pageoutRet stdParams sampleEnv swappedFrameSim) ∧
      (¬ (¬ flagSet swappedFrameSim (victimOf sampleEnv swappedFrameSim) stdParams.PG_ONSWAP ∨
          flagSet swappedFrameSim (victimOf sampleEnv swappedFrameSim) stdParams.PG_DIRTY) →
        allocate_frame stdParams sampleEnv swappedFrameSim 11 =
          .ret (sampleEnv.evict_fcn swappedFrameSim) s' ∧
        (s'.ptes (victimOf sampleEnv swappedFrameSim)).swap_off =
          (swappedFrameSim.ptes (victimOf sampleEnv swappedFrameSim)).swap_off) :=
  ⟨stdParams_wf, by decide, by decide, by decide,
    allocate_frame_writeback stdParams stdParams_wf sampleEnv swappedFrameSim 11
      (by decide) (by decide)⟩

theorem sample_run_returns :
    (allocRun stdParams sampleEnv (emptySim 3) [10, 11, 12, 13, 14]).isSome = true := by
  decide

/-- C7 on a run of five calls over three frames: the last two evict. -/
theorem evict_counters_sum_witness :
    (emptySim 3).evict_clean_count = 0 ∧ (emptySim 3).evict_dirty_count = 0 ∧
    noFreeCalls stdParams sampleEnv (emptySim 3) [10, 11, 12, 13, 14] = 2 ∧
    ∃ s', allocRun stdParams sampleEnv (emptySim 3) [10, 11, 12, 13, 14] = some s' ∧
      s'.evict_clean_count + s'.evict_dirty_count =
        (noFreeCalls stdParams sampleEnv (emptySim 3) [10, 11, 12, 13, 14] : Int) :=
  ⟨rfl, rfl, by decide,
    (allocRun stdParams sampleEnv (emptySim 3) [10, 11, 12, 13, 14]).get sample_run_returns,
    (Option.some_get sample_run_returns).symm,
    (evict_counters_sum stdParams sampleEnv (emptySim 3) [10, 11, 12, 13, 14] _ rfl rfl
      (Option.some_get sample_run_returns).symm).1⟩

/-- C8 at `oneFrameSim` with a swap store whose write fails: the call exits. -/
theorem allocate_frame_exit_iff_witness :
    stdParams.WF ∧
    (∀ i, i < oneFrameSim.memsize → (oneFrameSim.coremap i).in_use ≠ 0) ∧
    (0 ≤ failingEnv.evict_fcn oneFrameSim ∧
      failingEnv.evict_fcn oneFrameSim < oneFrameSim.memsize) ∧
    pageoutRet stdParams failingEnv oneFrameSim = -1 ∧
    ∃ s', allocate_frame stdParams failingEnv oneFrameSim 11 = .exit s' :=
  ⟨stdParams_wf, by decide, by decide, by decide,
    (allocate_frame_exit_iff stdParams stdParams_wf failingEnv oneFrameSim 11
      (fun _ => by decide)).1.2 ⟨by decide, by decide, by decide⟩⟩

/-! ### What a returning call did -/

/-- A call that returns took one of three ways: a free frame; an eviction
without write-back; an eviction with a write-back that succeeded. -/
theorem allocate_frame_ret_cases (P : Params) (E : Env) (s : Sim) (p : Nat) (fn : Int)
    (s' : Sim) (hret : allocate_frame P E s p = .ret fn s') :
    (scanFree s ≠ -1 ∧ fn = scanFree s ∧ s' = s.setCoremap fn.toNat p) ∨
    (scanFree s = -1 ∧ fn = E.evict_fcn s ∧ 0 ≤ fn ∧ fn < s.memsize ∧
      ¬ needsPageout P (evictState P E s) (victimOf E s) ∧
      s' = (evictState P E s).setCoremap fn.toNat p) ∨
    (scanFree s = -1 ∧ fn = E.evict_fcn s ∧ 0 ≤ fn ∧ fn < s.memsize ∧
      needsPageout P (evictState P E s) (victimOf E s) ∧ pageoutRet P E s ≠ -1 ∧
      s' = ((loggedState P E s).setSwapOff (victimOf E s) (pageoutRet P E s)).setCoremap
        fn.toNat p) := by
  by_cases h : scanFree s = -1
  · by_cases hr : E.evict_fcn s < 0 ∨ (s.memsize : Int) ≤ E.evict_fcn s
    · rw [allocate_frame_undef P E s p h hr] at hret
      exact Outcome.noConfusion hret
    · have h0 : 0 ≤ E.evict_fcn s := by omega
      have h1 : E.evict_fcn s < s.memsize := by omega
      rw [allocate_frame_evict P E s p h h0 h1] at hret
      by_cases hn : needsPageout P (evictState P E s) (victimOf E s)
      · rw [if_pos hn] at hret
        by_cases hw : pageoutRet P E s ≠ -1
        · rw [if_pos hw] at hret
          simp only [finish, Outcome.ret.injEq] at hret
          obtain ⟨hf, hs⟩ := hret
          subst hf
          exact Or.inr (Or.inr ⟨h, rfl, h0, h1, hn, hw, hs.symm⟩)
        · rw [if_neg hw] at hret
          exact Outcome.noConfusion hret
      · rw [if_neg hn] at hret
        simp only [finish, Outcome.ret.injEq] at hret
        obtain ⟨hf, hs⟩ := hret
        subst hf
        exact Or.inr (Or.inl ⟨h, rfl, h0, h1, hn, hs.symm⟩)
  · rw [allocate_frame_free P E s p h] at hret
    simp only [finish, Outcome.ret.injEq] at hret
    exact Or.inl ⟨h, hret.1.symm, by rw [← hret.1]; exact hret.2.symm⟩

theorem evictState_other (P : Params) (E : Env) (s : Sim) (j : Nat) (h : j ≠ victimOf E s) :
    (evictState P E s).ptes j = s.ptes j := by
  unfold evictState
  exact evictMark_other P _ _ j h

theorem pageoutState_other (P : Params) (E : Env) (s : Sim) (j : Nat)
    (h : j ≠ victimOf E s) : (pageoutState P E s).ptes j = s.ptes j := by
  unfold pageoutState
  simp only [Sim.setFrame, if_neg h]
  exact evictState_other P E s j h

/-- A returning call that evicted: the frame returned is the one the policy
chose, the core map changed at that index only, every page-table entry but the
victim is as before, and the victim's `frame` is the entry value with `PG_VALID`
cleared (no write-back; `PG_DIRTY` was clear) or with `PG_VALID` and `PG_DIRTY`
cleared (write-back). -/
theorem evict_ret_state (P : Params) (E : Env) (s : Sim) (p : Nat) (fn : Int) (s' : Sim)
    (hret : allocate_frame P E s p = .ret fn s') (h : scanFree s = -1) :
    fn = E.evict_fcn s ∧ 0 ≤ fn ∧ fn < s.memsize ∧
    s'.coremap = (fun j => if j = fn.toNat then ⟨1, p⟩ else s.coremap j) ∧
    (∀ j, j ≠ victimOf E s → s'.ptes j = s.ptes j) ∧
    ((s'.ptes (victimOf E s)).frame = clearMask P (s.ptes (victimOf E s)).frame P.PG_VALID ∨
      (s'.ptes (victimOf E s)).frame =
        clearMask P (clearMask P (s.ptes (victimOf E s)).frame P.PG_VALID) P.PG_DIRTY) ∧
    (s'.ptes (victimOf E s)).frame &&& P.PG_VALID = 0 ∧
    (s'.ptes (victimOf E s)).frame &&& P.PG_DIRTY = 0 := by
  rcases allocate_frame_ret_cases P E s p fn s' hret with hc | hc | hc
  · exact absurd h hc.1
  · obtain ⟨_, hf, h0, h1, hn, hs⟩ := hc
    subst hs
    have hfr : ((evictState P E s).ptes (victimOf E s)).frame =
        clearMask P (s.ptes (victimOf E s)).frame P.PG_VALID := evictState_frame P E s
    refine ⟨hf, h0, h1, ?_, ?_, Or.inl hfr, ?_, ?_⟩
    · simp only [Sim.setCoremap]
      rw [(evictState_coremap P E s).1]
    · intro j hj; exact evictState_other P E s j hj
    · show ((evictState P E s).ptes (victimOf E s)).frame &&& P.PG_VALID = 0
      rw [hfr]; exact clearMask_and_self P _ _
    · show ((evictState P E s).ptes (victimOf E s)).frame &&& P.PG_DIRTY = 0
      unfold needsPageout at hn
      by_contra hx
      exact hn (Or.inr hx)
  · obtain ⟨_, hf, h0, h1, _, _, hs⟩ := hc
    subst hs
    have hfr : ((pageoutState P E s).ptes (victimOf E s)).frame =
        clearMask P (clearMask P (s.ptes (victimOf E s)).frame P.PG_VALID) P.PG_DIRTY :=
      pageoutState_frame P E s
    refine ⟨hf, h0, h1, ?_, ?_, Or.inr ?_, ?_, ?_⟩
    · simp only [Sim.setCoremap, Sim.setSwapOff]
      rw [(loggedState_coremap P E s).1]
    · intro j hj
      simp only [Sim.setCoremap, Sim.setSwapOff, if_neg hj]
      exact pageoutState_other P E s j hj
    · simp only [Sim.setCoremap, Sim.setSwapOff, if_true]
      exact hfr
    · simp only [Sim.setCoremap, Sim.setSwapOff, if_true]
      show ((pageoutState P E s).ptes (victimOf E s)).frame &&& P.PG_VALID = 0
      rw [hfr]
      exact clearMask_keeps_zero P _ _ _ (clearMask_and_self P _ _)
    · simp only [Sim.setCoremap, Sim.setSwapOff, if_true]
      show ((pageoutState P E s).ptes (victimOf E s)).frame &&& P.PG_DIRTY = 0
      rw [hfr]
      exact clearMask_and_self P _ _

/-- In both ways a call returns, the core map afterwards is the one before with
`coremap[fn]` set, and `fn` is inside the core map. -/
theorem ret_coremap (P : Params) (E : Env) (s : Sim) (p : Nat) (fn : Int) (s' : Sim)
    (hret : allocate_frame P E s p = .ret fn s') :
    fn.toNat < s.memsize ∧
    ∀ j, s'.coremap j = if j = fn.toNat then ⟨1, p⟩ else s.coremap j := by
  by_cases h : scanFree s = -1
  · obtain ⟨_, h0, h1, hc, _⟩ := evict_ret_state P E s p fn s' hret h
    exact ⟨by omega, fun j => by rw [hc]⟩
  · rcases allocate_frame_ret_cases P E s p fn s' hret with hc | hc | hc
    · obtain ⟨_, hf, hs⟩ := hc
      obtain ⟨k, hk, hlt, _, _⟩ := scanFree_found s h
      refine ⟨by rw [hf, hk]; simpa using hlt, ?_⟩
      intro j; rw [hs]; rfl
    · exact absurd hc.1 h
    · exact absurd hc.1 h

/-! ### The translator keeps the counters balanced -/

theorem physRun_eq (refs : List (Nat × Char)) : ∀ s : Sim, physRun s refs = s := by
  induction refs with
  | nil => intro s; rfl
  | cons r rest ih =>
    intro s
    obtain ⟨vaddr, type⟩ := r
    show physRun (find_physpage s vaddr type).2 rest = s
    rw [ih]; rfl

/-- C11. From counters that are all zero, after any finite sequence of calls of
`find_physpage` the sum `hit_count + miss_count` equals `ref_count`. -/
theorem find_physpage_counters_balance (s : Sim) (refs : List (Nat × Char))
    (hhit : s.hit_count = 0) (hmiss : s.miss_count = 0) (href : s.ref_count = 0) :
    (physRun s refs).hit_count + (physRun s refs).miss_count = (physRun s refs).ref_count := by
  rw [physRun_eq refs s, hhit, hmiss, href]; rfl

/-! ### A free frame: nothing but the core map changes -/

/-- C15. When a core-map entry below `memsize` is not in use, the call returns
the index `k` of a free frame and performs no eviction: every page-table entry,
the five counters, the log of `swap_pageout` calls and the number of `evict_fcn`
calls are as before, as are `memsize`, the page directory and physical memory;
the core map differs at index `k` only, where it now holds `{1, p}`. -/
theorem allocate_frame_free_no_eviction (P : Params) (E : Env) (s : Sim) (p : Nat)
    (hfree : ∃ i, i < s.memsize ∧ (s.coremap i).in_use = 0) :
    ∃ (k : Nat) (s' : Sim), allocate_frame P E s p = .ret (k : Int) s' ∧
      k < s.memsize ∧ (s.coremap k).in_use = 0 ∧
      s'.ptes = s.ptes ∧
      s'.hit_count = s.hit_count ∧ s'.miss_count = s.miss_count ∧
      s'.ref_count = s.ref_count ∧
      s'.evict_clean_count = s.evict_clean_count ∧
      s'.evict_dirty_count = s.evict_dirty_count ∧
      s'.swap_log = s.swap_log ∧ s'.evict_calls = s.evict_calls ∧
      s'.memsize = s.memsize ∧ s'.pgdir = s.pgdir ∧ s'.physmem = s.physmem ∧
      s'.coremap k = ⟨1, p⟩ ∧ ∀ j, j ≠ k → s'.coremap j = s.coremap j := by
  have h : scanFree s ≠ -1 := by
    intro hc
    obtain ⟨i, hi, h0⟩ := hfree
    exact (scanFree_eq_neg_one s).1 hc i hi h0
  obtain ⟨k, hk, hlt, h0, _⟩ := scanFree_found s h
  refine ⟨k, s.setCoremap k p, ?_, hlt, h0, rfl, rfl, rfl, rfl, rfl, rfl, rfl, rfl, rfl, rfl,
    rfl, ?_, ?_⟩
  · rw [allocate_frame_free P E s p h, hk]; rfl
  · simp [Sim.setCoremap]
  · intro j hj; simp [Sim.setCoremap, hj]

/-! ### Invariants of the page-table entries and of the core map -/

/-- C16. If in every page-table entry DIRTY is set only while VALID is set, the
same holds after a call that returns; and when the call evicted, the victim
ends with VALID and DIRTY both clear, with or without a swap write. -/
theorem allocate_frame_dirty_only_valid (P : Params) (E : Env) (s : Sim) (p : Nat)
    (fn : Int) (s' : Sim)
    (hinv : ∀ q, flagSet s q P.PG_DIRTY → flagSet s q P.PG_VALID)
    (hret : allocate_frame P E s p = .ret fn s') :
    (∀ q, flagSet s' q P.PG_DIRTY → flagSet s' q P.PG_VALID) ∧
    (scanFree s = -1 →
      ¬ flagSet s' (victimOf E s) P.PG_VALID ∧ ¬ flagSet s' (victimOf E s) P.PG_DIRTY) := by
  by_cases h : scanFree s = -1
  · obtain ⟨_, _, _, _, hoth, _, hv, hd⟩ := evict_ret_state P E s p fn s' hret h
    refine ⟨?_, fun _ => ⟨fun hx => hx hv, fun hx => hx hd⟩⟩
    intro q hq
    by_cases hqv : q = victimOf E s
    · subst hqv; exact absurd hd hq
    · unfold flagSet at hq ⊢
      rw [hoth q hqv] at hq ⊢
      exact hinv q hq
  · refine ⟨?_, fun hx => absurd hx h⟩
    rcases allocate_frame_ret_cases P E s p fn s' hret with hc | hc | hc
    · obtain ⟨_, _, hs⟩ := hc
      subst hs
      exact hinv
    · exact absurd hc.1 h
    · exact absurd hc.1 h

/-- C17. Suppose every in-use frame `i` refers to an entry with VALID set and
frame number `i`, distinct in-use frames refer to distinct entries, and no
in-use frame refers to `p`.  After a call that returns `fn`: every in-use frame
`j` other than `fn` still refers to an entry with VALID set and frame number
`j`; distinct in-use frames still refer to distinct entries; and when the call
evicted, the victim has VALID clear and no frame refers to it. -/
theorem allocate_frame_keeps_links (P : Params) (E : Env) (s : Sim) (p : Nat)
    (fn : Int) (s' : Sim)
    (hlink : ∀ i, i < s.memsize → (s.coremap i).in_use ≠ 0 →
      flagSet s (s.coremap i).pte P.PG_VALID ∧
      (s.ptes (s.coremap i).pte).frame >>> P.PAGE_SHIFT = i)
    (hdist : ∀ i j, i < s.memsize → j < s.memsize → (s.coremap i).in_use ≠ 0 →
      (s.coremap j).in_use ≠ 0 → i ≠ j → (s.coremap i).pte ≠ (s.coremap j).pte)
    (hp : ∀ i, i < s.memsize → (s.coremap i).in_use ≠ 0 → (s.coremap i).pte ≠ p)
    (hret : allocate_frame P E s p = .ret fn s') :
    (∀ j, j < s.memsize → j ≠ fn.toNat → (s'.coremap j).in_use ≠ 0 →
      flagSet s' (s'.coremap j).pte P.PG_VALID ∧
      (s'.ptes (s'.coremap j).pte).frame >>> P.PAGE_SHIFT = j) ∧
    (∀ i j, i < s.memsize → j < s.memsize → (s'.coremap i).in_use ≠ 0 →
      (s'.coremap j).in_use ≠ 0 → i ≠ j → (s'.coremap i).pte ≠ (s'.coremap j).pte) ∧
    (scanFree s = -1 →
      ¬ flagSet s' (victimOf E s) P.PG_VALID ∧
      ∀ j, j < s.memsize → (s'.coremap j).pte ≠ victimOf E s) := by
  obtain ⟨hfn, hcm⟩ := ret_coremap P E s p fn s' hret
  have hcm_ne : ∀ j, j ≠ fn.toNat → s'.coremap j = s.coremap j := by
    intro j hj; rw [hcm j, if_neg hj]
  have hcm_eq : s'.coremap fn.toNat = ⟨1, p⟩ := by rw [hcm fn.toNat, if_pos rfl]
  refine ⟨?_, ?_, ?_⟩
  · intro j hj hjf hin
    rw [hcm_ne j hjf] at hin ⊢
    obtain ⟨hv, hnum⟩ := hlink j hj hin
    have hsame : s'.ptes (s.coremap j).pte = s.ptes (s.coremap j).pte := by
      by_cases h : scanFree s = -1
      · obtain ⟨hf, _, _, _, hoth, _⟩ := evict_ret_state P E s p fn s' hret h
        have hfull := (scanFree_eq_neg_one s).1 h
        apply hoth
        have hne := hdist j fn.toNat hj hfn hin (hfull _ hfn) hjf
        unfold victimOf
        rw [← hf]
        exact hne
      · rcases allocate_frame_ret_cases P E s p fn s' hret with hc | hc | hc
        · rw [hc.2.2]; rfl
        · exact absurd hc.1 h
        · exact absurd hc.1 h
    unfold flagSet at hv ⊢
    rw [hsame]
    exact ⟨hv, hnum⟩
  · intro i j hi hj hini hinj hij
    by_cases hif : i = fn.toNat
    · have hjf : j ≠ fn.toNat := fun hx => hij (hif.trans hx.symm)
      rw [hcm_ne j hjf] at hinj ⊢
      rw [hif, hcm_eq]
      exact fun hx => hp j hj hinj hx.symm
    · rw [hcm_ne i hif] at hini ⊢
      by_cases hjf : j = fn.toNat
      · rw [hjf, hcm_eq]
        exact hp i hi hini
      · rw [hcm_ne j hjf] at hinj ⊢
        exact hdist i j hi hj hini hinj hij
  · intro h
    obtain ⟨hf, _, _, _, _, _, hv, _⟩ := evict_ret_state P E s p fn s' hret h
    have hfull := (scanFree_eq_neg_one s).1 h
    have hvict : victimOf E s = (s.coremap fn.toNat).pte := by
      unfold victimOf; rw [← hf]
    refine ⟨fun hx => hx hv, ?_⟩
    intro j hj
    by_cases hjf : j = fn.toNat
    · rw [hjf, hcm_eq, hvict]
      exact fun hx => hp fn.toNat hfn (hfull _ hfn) hx.symm
    · rw [hcm_ne j hjf, hvict]
      exact hdist j fn.toNat hj hfn (hfull _ hj) (hfull _ hfn) hjf

/-! ### Filling an empty core map -/

theorem filledTo_scan (s : Sim) (k : Nat) (hf : filledTo s k) (hk : k < s.memsize) :
    scanFree s = (k : Int) := by
  have hne : scanFree s ≠ -1 := by
    intro hc
    exact (scanFree_eq_neg_one s).1 hc k hk (hf.2 k (le_refl _) hk)
  obtain ⟨k', hk', hlt, h0, hlow⟩ := scanFree_found s hne
  rw [hk']
  have : k' = k := by
    rcases Nat.lt_trichotomy k' k with h | h | h
    · exact absurd h0 (hf.1 k' h)
    · exact h
    · exact absurd (hf.2 k (le_refl _) hk) (hlow k h)
  rw [this]

theorem filledTo_step (s : Sim) (k p : Nat) (hf : filledTo s k) :
    filledTo (s.setCoremap k p) (k + 1) := by
  constructor
  · intro i hi
    by_cases h : i = k
    · simp [Sim.setCoremap, h]
    · simp only [Sim.setCoremap, if_neg h]
      exact hf.1 i (by omega)
  · intro i hi hlt
    have h : i ≠ k := by omega
    simp only [Sim.setCoremap, if_neg h]
    exact hf.2 i (by omega) hlt

/-- A run of calls on a core map filled up to `k`, no longer than the number of
free frames: the calls return `k, k + 1, ...` and only the core map changes. -/
theorem allocRun_fill (P : Params) (E : Env) (ps : List Nat) :
    ∀ (s : Sim) (k : Nat), filledTo s k → k + ps.length ≤ s.memsize →
      allocFrames P E s ps = (List.range' k ps.length).map (fun i : Nat => (i : Int)) ∧
      ∃ s', allocRun P E s ps = some s' ∧ filledTo s' (k + ps.length) ∧
        s'.memsize = s.memsize ∧
        s'.evict_clean_count = s.evict_clean_count ∧
        s'.evict_dirty_count = s.evict_dirty_count ∧
        s'.evict_calls = s.evict_calls ∧ s'.swap_log = s.swap_log := by
  induction ps with
  | nil =>
    intro s k hf _
    exact ⟨rfl, s, rfl, hf, rfl, rfl, rfl, rfl, rfl⟩
  | cons p ps ih =>
    intro s k hf hlen
    simp only [List.length_cons] at hlen
    have hk : k < s.memsize := by omega
    have hscan := filledTo_scan s k hf hk
    have hne : scanFree s ≠ -1 := by rw [hscan]; omega
    have hcall : allocate_frame P E s p = .ret (k : Int) (s.setCoremap k p) := by
      rw [allocate_frame_free P E s p hne, hscan]; rfl
    obtain ⟨h1, s', h2, h3, h4, h5, h6, h7, h8⟩ :=
      ih (s.setCoremap k p) (k + 1) (filledTo_step s k p hf)
        (by show k + 1 + ps.length ≤ s.memsize; omega)
    constructor
    · unfold allocFrames
      rw [hcall]
      simp only [List.length_cons, List.range'_succ, List.map_cons]
      rw [h1]
    · refine ⟨s', ?_, ?_, h4, h5, h6, h7, h8⟩
      · unfold allocRun
        rw [hcall]
        exact h2
      · have : k + (p :: ps).length = k + 1 + ps.length := by
          simp only [List.length_cons]; omega
        rw [this]; exact h3

/-- C18. On a core map of `memsize` frames none of which is in use, a run of at
most `memsize` calls returns `0, 1, 2, ...` in that order, with both eviction
counters and the number of `evict_fcn` calls unchanged; after exactly `memsize`
calls the scan finds no free frame, so the next call is the first to call
`evict_fcn`. -/
theorem allocate_frame_fills_in_order (P : Params) (E : Env) (s : Sim) (ps : List Nat)
    (hempty : ∀ i, i < s.memsize → (s.coremap i).in_use = 0)
    (hlen : ps.length ≤ s.memsize) :
    allocFrames P E s ps = (List.range ps.length).map (fun i : Nat => (i : Int)) ∧
    ∃ s', allocRun P E s ps = some s' ∧
      s'.evict_clean_count = s.evict_clean_count ∧
      s'.evict_dirty_count = s.evict_dirty_count ∧
      s'.evict_calls = s.evict_calls ∧
      (ps.length = s.memsize →
        scanFree s' = -1 ∧
        ∀ p s'', (allocate_frame P E s' p).sim? = some s'' →
          s''.evict_calls = s'.evict_calls + 1) := by
  have hf : filledTo s 0 := ⟨fun i hi => absurd hi (Nat.not_lt_zero i), fun i _ hi => hempty i hi⟩
  obtain ⟨h1, s', h2, h3, h4, h5, h6, h7, _⟩ :=
    allocRun_fill P E ps s 0 hf (by omega)
  refine ⟨?_, s', h2, h5, h6, h7, ?_⟩
  · rw [h1, List.range_eq_range']
  · intro hfull
    have hscan : scanFree s' = -1 := by
      rw [scanFree_eq_neg_one]
      intro j hj
      exact h3.1 j (by omega)
    refine ⟨hscan, ?_⟩
    intro p s'' hs
    by_cases hr : E.evict_fcn s' < 0 ∨ (s'.memsize : Int) ≤ E.evict_fcn s'
    · rw [allocate_frame_undef P E s' p hscan hr] at hs
      exact Option.noConfusion hs
    · have h0 : 0 ≤ E.evict_fcn s' := by omega
      have h1' : E.evict_fcn s' < s'.memsize := by omega
      have hec : (evictState P E s').evict_calls = s'.evict_calls + 1 := by
        unfold evictState
        rw [(evictMark_fields P _ _).2.2.1]
      rw [allocate_frame_evict P E s' p hscan h0 h1'] at hs
      by_cases hn : needsPageout P (evictState P E s') (victimOf E s')
      · rw [if_pos hn] at hs
        by_cases hw : pageoutRet P E s' ≠ -1
        · rw [if_pos hw] at hs
          simp only [finish, Outcome.sim?, Option.some.injEq] at hs
          rw [← hs]; exact hec
        · rw [if_neg hw] at hs
          simp only [Outcome.sim?, Option.some.injEq] at hs
          rw [← hs]; exact hec
      · rw [if_neg hn] at hs
        simp only [finish, Outcome.sim?, Option.some.injEq] at hs
        rw [← hs]; exact hec

/-! ### What is written out -/

/-- Bit by bit: `x & ~m` on a word keeps the bits of `x` outside `m`. -/
theorem clearMask_testBit (P : Params) (x m i : Nat) (hx : x < 2 ^ P.FRAME_BITS)
    (hm : m < 2 ^ P.FRAME_BITS) :
    (clearMask P x m).testBit i = (x.testBit i && !m.testBit i) := by
  unfold clearMask
  have h : 2 ^ P.FRAME_BITS - 1 - m = 2 ^ P.FRAME_BITS - (m + 1) := by omega
  rw [h, Nat.testBit_and, Nat.testBit_two_pow_sub_succ hm]
  by_cases hxi : x.testBit i = true
  · have hi := testBit_lt_of_lt_two_pow P.FRAME_BITS x i hx hxi
    simp [hxi, hi]
  · simp only [Bool.not_eq_true] at hxi
    simp [hxi]

theorem clearMask_lt (P : Params) (x m : Nat) (hx : x < 2 ^ P.FRAME_BITS) :
    clearMask P x m < 2 ^ P.FRAME_BITS := by
  unfold clearMask
  exact lt_of_le_of_lt Nat.and_le_left hx

/-- Clearing a flag that lies below `PAGE_SHIFT` leaves the frame number. -/
theorem clearMask_shift (P : Params) (x m : Nat) (hx : x < 2 ^ P.FRAME_BITS)
    (hm : m < 2 ^ P.FRAME_BITS) (hlow : m < 2 ^ P.PAGE_SHIFT) :
    clearMask P x m >>> P.PAGE_SHIFT = x >>> P.PAGE_SHIFT := by
  apply Nat.eq_of_testBit_eq
  intro j
  rw [Nat.testBit_shiftRight, Nat.testBit_shiftRight, clearMask_testBit P x m _ hx hm]
  have hmj : m.testBit (P.PAGE_SHIFT + j) = false := by
    apply Nat.testBit_lt_two_pow
    exact lt_of_lt_of_le hlow (Nat.pow_le_pow_right (by decide) (by omega))
  simp [hmj]

/-- C20. For a call that evicted and returned, with the flags `PG_VALID` and
`PG_DIRTY` below `PAGE_SHIFT` and the victim's `frame` a word of `FRAME_BITS`
bits: when the victim is written back, `swap_pageout` is called with its
`frame`, VALID and DIRTY cleared, shifted right by `PAGE_SHIFT`, and with its
`swap_off` as on entry; the victim's `frame` changes in bits of `PG_VALID` and
`PG_DIRTY` only, so its frame number and its ON_SWAP bits are as before; and
when every frame `i` refers to an entry with frame number `i`, the frame number
passed to `swap_pageout` is the frame returned. -/
theorem allocate_frame_pageout_args (P : Params) (hP : P.WF) (E : Env) (s : Sim) (p : Nat)
    (fn : Int) (s' : Sim)
    (hlowV : P.PG_VALID < 2 ^ P.PAGE_SHIFT) (hlowD : P.PG_DIRTY < 2 ^ P.PAGE_SHIFT)
    (hword : (s.ptes (victimOf E s)).frame < 2 ^ P.FRAME_BITS)
    (hfull : ∀ i, i < s.memsize → (s.coremap i).in_use ≠ 0)
    (hret : allocate_frame P E s p = .ret fn s') :
    ((¬ flagSet s (victimOf E s) P.PG_ONSWAP ∨ flagSet s (victimOf E s) P.PG_DIRTY) →
      s'.swap_log = s.swap_log ++
        [⟨victimOf E s,
          clearMask P (clearMask P (s.ptes (victimOf E s)).frame P.PG_VALID) P.PG_DIRTY >>>
            P.PAGE_SHIFT,
          (s.ptes (victimOf E s)).swap_off⟩]) ∧
    (∀ i, P.PG_VALID.testBit i = false → P.PG_DIRTY.testBit i = false →
      (s'.ptes (victimOf E s)).frame.testBit i = (s.ptes (victimOf E s)).frame.testBit i) ∧
    (s'.ptes (victimOf E s)).frame >>> P.PAGE_SHIFT =
      (s.ptes (victimOf E s)).frame >>> P.PAGE_SHIFT ∧
    (s'.ptes (victimOf E s)).frame &&& P.PG_ONSWAP =
      (s.ptes (victimOf E s)).frame &&& P.PG_ONSWAP ∧
    ((∀ i, i < s.memsize → (s.ptes (s.coremap i).pte).frame >>> P.PAGE_SHIFT = i) →
      (pageoutFrame P E s : Int) = fn) := by
  have h := (scanFree_eq_neg_one s).2 hfull
  obtain ⟨hf, h0, h1, _, _, hfr, _, _⟩ := evict_ret_state P E s p fn s' hret h
  have hw1 := clearMask_lt P (s.ptes (victimOf E s)).frame P.PG_VALID hword
  have hsh1 := clearMask_shift P _ P.PG_VALID hword hP.valid_lt hlowV
  have hsh2 := clearMask_shift P _ P.PG_DIRTY hw1 hP.dirty_lt hlowD
  have hpf : pageoutFrame P E s = (s.ptes (victimOf E s)).frame >>> P.PAGE_SHIFT := by
    unfold pageoutFrame
    rw [pageoutState_frame, hsh2, hsh1]
  refine ⟨?_, ?_, ?_, ?_, ?_⟩
  · intro hcond
    have hn := (needsPageout_evictState P hP E s).2 hcond
    rcases allocate_frame_ret_cases P E s p fn s' hret with hc | hc | hc
    · exact absurd h hc.1
    · exact absurd hn hc.2.2.2.2.1
    · rw [hc.2.2.2.2.2.2]
      have hl := loggedState_swap_log P E s
      unfold pageoutFrame at hl
      rw [pageoutState_frame] at hl
      exact hl
  · intro i hv hd
    rcases hfr with hx | hx
    · rw [hx, clearMask_testBit P _ _ _ hword hP.valid_lt, hv]; simp
    · rw [hx, clearMask_testBit P _ _ _ hw1 hP.dirty_lt,
        clearMask_testBit P _ _ _ hword hP.valid_lt, hv, hd]; simp
  · rcases hfr with hx | hx
    · rw [hx, hsh1]
    · rw [hx, hsh2, hsh1]
  · have hpol : 0 ≤ E.evict_fcn s ∧ E.evict_fcn s < s.memsize := by
      rw [← hf]; exact ⟨h0, h1⟩
    exact evict_onswap_unchanged P hP E s p hfull hpol s' (by rw [hret]; rfl)
  · intro hnum
    rw [hpf]
    have hv : victimOf E s = (s.coremap fn.toNat).pte := by unfold victimOf; rw [← hf]
    rw [hv, hnum fn.toNat (by omega)]
    omega

/-! ### The page directory after `init_pagetable` -/

theorem pgdirLoop_pgdir (n : Nat) :
    ∀ (i : Nat) (s : Sim) (j : Nat),
      (pgdirLoop i n s).pgdir j = if i ≤ j ∧ j < i + n then 0 else s.pgdir j := by
  induction n with
  | zero =>
    intro i s j
    have : ¬ (i ≤ j ∧ j < i + 0) := by omega
    simp only [pgdirLoop, if_neg this]
  | succ n ih =>
    intro i s j
    simp only [pgdirLoop]
    rw [ih (i + 1) (s.setPde i 0) j]
    by_cases h1 : i + 1 ≤ j ∧ j < i + 1 + n
    · have h2 : i ≤ j ∧ j < i + (n + 1) := by omega
      rw [if_pos h1, if_pos h2]
    · rw [if_neg h1]
      by_cases hj : j = i
      · have h2 : i ≤ j ∧ j < i + (n + 1) := by omega
        rw [if_pos h2]
        simp [Sim.setPde, hj]
      · have h2 : ¬ (i ≤ j ∧ j < i + (n + 1)) := by omega
        rw [if_neg h2]
        simp [Sim.setPde, hj]

/-- C13. After `init_pagetable`, whatever the directory held before, every
entry `pgdir[i]` with `i < PTRS_PER_PGDIR` has `pde == 0`: it carries no table
reference and its VALID bit is clear. -/
theorem init_pagetable_all_invalid (P : Params) (L : Layout) (s : Sim) (i : Nat)
    (hi : i < L.PTRS_PER_PGDIR) :
    (init_pagetable L s).pgdir i = 0 ∧
    (init_pagetable L s).pgdir i &&& P.PG_VALID = 0 ∧
    (init_pagetable L s).pgdir i &&& L.PAGE_MASK = 0 := by
  have h : (init_pagetable L s).pgdir i = 0 := by
    unfold init_pagetable
    rw [pgdirLoop_pgdir]
    have : 0 ≤ i ∧ i < 0 + L.PTRS_PER_PGDIR := by omega
    rw [if_pos this]
  rw [h]
  exact ⟨rfl, Nat.zero_and _, Nat.zero_and _⟩

/-! ### A new second-level table -/

theorem pgtblLoop_ptes (P : Params) (L : Layout) (pgtbl : Nat) (n : Nat) :
    ∀ (i : Nat) (s : Sim),
      (∀ j, i ≤ j → j < i + n →
        (pgtblLoop P L pgtbl i n s).ptes (pgtbl + j * L.PTE_SIZE) = ⟨0, P.INVALID_SWAP⟩) ∧
      (∀ q, (∀ j, i ≤ j → j < i + n → q ≠ pgtbl + j * L.PTE_SIZE) →
        (pgtblLoop P L pgtbl i n s).ptes q = s.ptes q) := by
  induction n with
  | zero =>
    intro i s
    exact ⟨fun j h1 h2 => by omega, fun q _ => rfl⟩
  | succ n ih =>
    intro i s
    simp only [pgtblLoop]
    obtain ⟨ih1, ih2⟩ := ih (i + 1)
      ((s.setFrame (pgtbl + i * L.PTE_SIZE) 0).setSwapOff (pgtbl + i * L.PTE_SIZE)
        P.INVALID_SWAP)
    constructor
    · intro j h1 h2
      by_cases hj : i + 1 ≤ j
      · exact ih1 j hj (by omega)
      · have hji : j = i := by omega
        subst hji
        by_cases hex : ∃ k, j + 1 ≤ k ∧ k < j + 1 + n ∧
            pgtbl + j * L.PTE_SIZE = pgtbl + k * L.PTE_SIZE
        · obtain ⟨k, hk1, hk2, hk3⟩ := hex
          have hk := ih1 k hk1 hk2
          rw [← hk3] at hk
          exact hk
        · rw [ih2]
          · simp [Sim.setFrame, Sim.setSwapOff]
          · intro k hk1 hk2 hk3
            exact hex ⟨k, hk1, hk2, hk3⟩
    · intro q hq
      rw [ih2 q (fun j h1 h2 => hq j (by omega) (by omega))]
      have hne : q ≠ pgtbl + i * L.PTE_SIZE := hq i (le_refl _) (by omega)
      simp [Sim.setFrame, Sim.setSwapOff, hne]

/-- The tag `| PG_VALID` on an aligned pointer: the flag reads as set. -/
theorem tag_valid (a v : Nat) (hv : 0 < v) : (a ||| v) &&& v ≠ 0 := by
  have h : (a ||| v) &&& v = v := by
    apply Nat.eq_of_testBit_eq
    intro i
    rw [Nat.testBit_and, Nat.testBit_or]
    cases a.testBit i <;> cases v.testBit i <;> rfl
  rw [h]; omega

/-- The mask `& PAGE_MASK` gives the aligned pointer back. -/
theorem tag_mask (N k a v : Nat) (hk : k ≤ N) (ha : a < 2 ^ N) (hal : a % 2 ^ k = 0)
    (hv : v < 2 ^ k) : (a ||| v) &&& (2 ^ N - 1 - (2 ^ k - 1)) = a := by
  have hpos : 0 < 2 ^ k := Nat.two_pow_pos k
  have hle : 2 ^ k ≤ 2 ^ N := Nat.pow_le_pow_right (by decide) hk
  have hlt : 2 ^ k - 1 < 2 ^ N := by omega
  have h : 2 ^ N - 1 - (2 ^ k - 1) = 2 ^ N - (2 ^ k - 1 + 1) := by omega
  rw [h]
  apply Nat.eq_of_testBit_eq
  intro i
  rw [Nat.testBit_and, Nat.testBit_or, Nat.testBit_two_pow_sub_succ hlt,
    Nat.testBit_two_pow_sub_one]
  by_cases hik : i < k
  · have hai : a.testBit i = false := by
      have := Nat.testBit_mod_two_pow a k i
      rw [hal] at this
      simp only [Nat.zero_testBit, hik, decide_True, Bool.true_and] at this
      exact this.symm
    simp [hik, hai]
  · have hvi : v.testBit i = false := by
      apply Nat.testBit_lt_two_pow
      exact lt_of_lt_of_le hv (Nat.pow_le_pow_right (by decide) (by omega))
    by_cases hai : a.testBit i = true
    · have hiN := testBit_lt_of_lt_two_pow N a i ha hai
      simp [hik, hvi, hai, hiN]
    · simp only [Bool.not_eq_true] at hai
      simp [hvi, hai]

/-- C12. When `posix_memalign` succeeds with an address `pgtbl` aligned to
`PAGE_SIZE`, `init_second_level` returns a directory entry with VALID set whose
table reference `pde & PAGE_MASK` is `pgtbl`, the block just allocated; each of
its `PTRS_PER_PGTBL` entries has `frame == 0` (so VALID, DIRTY and ON_SWAP are
clear) and `swap_off == INVALID_SWAP`; memory outside the table is as before. -/
theorem init_second_level_table (P : Params) (L : Layout) (hL : L.WF P)
    (memalign : Nat → Nat → Option Nat) (s : Sim) (pgtbl : Nat)
    (halloc : memalign L.PAGE_SIZE (L.PTRS_PER_PGTBL * L.PTE_SIZE) = some pgtbl)
    (halign : pgtbl % L.PAGE_SIZE = 0) (hptr : pgtbl < 2 ^ L.PTR_BITS) :
    ∃ pde s', init_second_level P L memalign s = some (pde, s') ∧
      pde &&& P.PG_VALID ≠ 0 ∧
      pde &&& L.PAGE_MASK = pgtbl ∧
      (∀ i, i < L.PTRS_PER_PGTBL →
        s'.ptes ((pde &&& L.PAGE_MASK) + i * L.PTE_SIZE) = ⟨0, P.INVALID_SWAP⟩ ∧
        ¬ flagSet s' ((pde &&& L.PAGE_MASK) + i * L.PTE_SIZE) P.PG_VALID ∧
        ¬ flagSet s' ((pde &&& L.PAGE_MASK) + i * L.PTE_SIZE) P.PG_DIRTY ∧
        ¬ flagSet s' ((pde &&& L.PAGE_MASK) + i * L.PTE_SIZE) P.PG_ONSWAP) ∧
      (∀ q, (∀ i, i < L.PTRS_PER_PGTBL → q ≠ pgtbl + i * L.PTE_SIZE) →
        s'.ptes q = s.ptes q) := by
  have hmask : (pgtbl ||| P.PG_VALID) &&& L.PAGE_MASK = pgtbl := by
    rw [hL.page_mask, hL.page_size]
    apply tag_mask L.PTR_BITS P.PAGE_SHIFT pgtbl P.PG_VALID hL.shift_le hptr
    · rw [← hL.page_size]; exact halign
    · rw [← hL.page_size]; exact hL.valid_low
  obtain ⟨h1, h2⟩ := pgtblLoop_ptes P L pgtbl L.PTRS_PER_PGTBL 0 s
  refine ⟨pgtbl ||| P.PG_VALID, pgtblLoop P L pgtbl 0 L.PTRS_PER_PGTBL s, ?_,
    tag_valid pgtbl P.PG_VALID hL.valid_pos, hmask, ?_, ?_⟩
  · unfold init_second_level
    rw [halloc]
  · intro i hi
    rw [hmask]
    have he := h1 i (Nat.zero_le _) (by omega)
    unfold flagSet
    rw [he]
    simp
  · intro q hq
    exact h2 q (fun j _ hj => hq j (by omega))

/-! ### A frame after `init_frame` -/

/-- C14. For a frame number `f < memsize`, and with `sizeof(int) +
sizeof(addr_t)` no larger than `SIMPAGESIZE`, `init_frame(f, v)` returns; in the
page `[f * SIMPAGESIZE, (f + 1) * SIMPAGESIZE)` the `sizeof(addr_t)` bytes from
offset `sizeof(int)` hold the bytes of `v` and every other byte is zero; every
byte of `physmem` outside the page is as before, as is the rest of the state. -/
theorem init_frame_page (L : Layout) (s : Sim) (f v : Nat) (hf : f < s.memsize)
    (hfit : L.INT_SIZE + L.ADDR_SIZE ≤ L.SIMPAGESIZE) :
    ∃ s', init_frame L s (f : Int) v = some s' ∧
      (∀ b, f * L.SIMPAGESIZE ≤ b → b < (f + 1) * L.SIMPAGESIZE →
        s'.physmem b =
          if L.INT_SIZE ≤ b - f * L.SIMPAGESIZE ∧
              b - f * L.SIMPAGESIZE < L.INT_SIZE + L.ADDR_SIZE then
            L.addrByte v (b - f * L.SIMPAGESIZE - L.INT_SIZE)
          else 0) ∧
      (∀ b, ¬ (f * L.SIMPAGESIZE ≤ b ∧ b < (f + 1) * L.SIMPAGESIZE) →
        s'.physmem b = s.physmem b) ∧
      s'.ptes = s.ptes ∧ s'.coremap = s.coremap ∧ s'.pgdir = s.pgdir ∧
      s'.memsize = s.memsize := by
  have hmul : (f + 1) * L.SIMPAGESIZE = f * L.SIMPAGESIZE + L.SIMPAGESIZE := by ring
  have hbound : (f + 1) * L.SIMPAGESIZE ≤ s.memsize * L.SIMPAGESIZE :=
    Nat.mul_le_mul_right _ hf
  have hneg : ¬ ((f : Int) < 0) := by omega
  have h1 : ¬ (s.memsize * L.SIMPAGESIZE < f * L.SIMPAGESIZE + L.SIMPAGESIZE) := by omega
  have h2 : ¬ (s.memsize * L.SIMPAGESIZE < f * L.SIMPAGESIZE + L.INT_SIZE + L.ADDR_SIZE) := by
    omega
  refine ⟨(s.memset (f * L.SIMPAGESIZE) 0 L.SIMPAGESIZE).storeAddr L
    (f * L.SIMPAGESIZE + L.INT_SIZE) v, ?_, ?_, ?_, rfl, rfl, rfl, rfl⟩
  · unfold init_frame
    simp only [hneg, if_false, Int.toNat_ofNat, Sim.memset]
    rw [if_neg h1, if_neg h2]
  · intro b hb1 hb2
    simp only [Sim.storeAddr, Sim.memset]
    by_cases hc : L.INT_SIZE ≤ b - f * L.SIMPAGESIZE ∧
        b - f * L.SIMPAGESIZE < L.INT_SIZE + L.ADDR_SIZE
    · have hc' : f * L.SIMPAGESIZE + L.INT_SIZE ≤ b ∧
          b < f * L.SIMPAGESIZE + L.INT_SIZE + L.ADDR_SIZE := by omega
      rw [if_pos hc, if_pos hc']
      congr 1
      omega
    · have hc' : ¬ (f * L.SIMPAGESIZE + L.INT_SIZE ≤ b ∧
          b < f * L.SIMPAGESIZE + L.INT_SIZE + L.ADDR_SIZE) := by omega
      have hin : f * L.SIMPAGESIZE ≤ b ∧ b < f * L.SIMPAGESIZE + L.SIMPAGESIZE := by omega
      rw [if_neg hc, if_neg hc', if_pos hin]
  · intro b hb
    simp only [Sim.storeAddr, Sim.memset]
    have hc' : ¬ (f * L.SIMPAGESIZE + L.INT_SIZE ≤ b ∧
        b < f * L.SIMPAGESIZE + L.INT_SIZE + L.ADDR_SIZE) := by omega
    have hin : ¬ (f * L.SIMPAGESIZE ≤ b ∧ b < f * L.SIMPAGESIZE + L.SIMPAGESIZE) := by omega
    rw [if_neg hc', if_neg hin]

/-! ### The listing of the page directory -/

theorem pagedirLoop_all_invalid (P : Params) (L : Layout) (s : Sim) (n : Nat) :
    ∀ (i : Nat) (first last : Int),
      (∀ j, i ≤ j → j < i + n → s.pgdir j &&& P.PG_VALID = 0) →
      pagedirLoop P L s i n first last = [] := by
  induction n with
  | zero => intro i first last _; rfl
  | succ n ih =>
    intro i first last h
    simp only [pagedirLoop, h i (le_refl _) (by omega), if_true]
    exact ih (i + 1) _ _ (fun j h1 h2 => h j (by omega) (by omega))

/-- C19, the code at failing inputs.  Right after `init_pagetable` (all 4096
entries invalid) `print_pagedirectory` prints nothing.  On a directory of four
entries of which only entry 1 is valid it prints the run `0..0`, the line of
entry 1 and its table listing, and nothing for the run `2..3` that ends the
directory.  `print_pagetbl` does print a run that ends the table. -/
theorem print_pagedirectory_drops_last_run :
    print_pagedirectory stdParams stdLayout (init_pagetable stdLayout dirSim) = [] ∧
    (dirSim.pgdir 2 &&& stdParams.PG_VALID = 0 ∧ dirSim.pgdir 3 &&& stdParams.PG_VALID = 0) ∧
    print_pagedirectory stdParams tinyLayout dirSim =
      [.dirInvalid 0 0, .dirTable 1 4096, .tblInvalid 0 0, .tblValid 1 true 1,
        .tblOnswap 2 7] ∧
    print_pagetbl stdParams tinyLayout (emptySim 2) 4096 = [.tblInvalid 0 2] := by
  refine ⟨?_, by decide, by decide, by decide⟩
  apply pagedirLoop_all_invalid
  intro j _ hj
  have h : (init_pagetable stdLayout dirSim).pgdir j = 0 := by
    unfold init_pagetable
    rw [pgdirLoop_pgdir, if_pos ⟨Nat.zero_le _, hj⟩]
  rw [h]
  exact Nat.zero_and _

/-! ### The later theorems at concrete inputs -/

theorem stdLayout_wf : stdLayout.WF stdParams := by
  constructor <;> decide

/-- A call whose returned frame number is known returned with some state. -/
theorem Outcome.eq_ret (o : Outcome) (fn : Int) (h : o.fn? = some fn) :
    ∃ s', o = .ret fn s' := by
  cases o with
  | ret fn' s' =>
    simp only [Outcome.fn?, Option.some.injEq] at h
    exact ⟨s', by rw [h]⟩
  | exit s' => exact Option.noConfusion h
  | undef => exact Option.noConfusion h

theorem twoFrameSim_dirty_valid :
    ∀ q, flagSet twoFrameSim q stdParams.PG_DIRTY → flagSet twoFrameSim q stdParams.PG_VALID := by
  intro q hq
  unfold flagSet at hq ⊢
  by_cases h10 : q = 10
  · subst h10; decide
  · by_cases h11 : q = 11
    · subst h11; decide
    · have hz : twoFrameSim.ptes q = ⟨0, -1⟩ := by
        simp [twoFrameSim, emptySim, h10, h11]
      rw [hz] at hq
      exact absurd (Nat.zero_and _) hq

/-- C11 on two references from the initial state. -/
theorem find_physpage_counters_balance_witness :
    (emptySim 2).hit_count = 0 ∧ (emptySim 2).miss_count = 0 ∧ (emptySim 2).ref_count = 0 ∧
    (physRun (emptySim 2) [(0, 'L'), (4096, 'S')]).hit_count +
        (physRun (emptySim 2) [(0, 'L'), (4096, 'S')]).miss_count =
      (physRun (emptySim 2) [(0, 'L'), (4096, 'S')]).ref_count :=
  ⟨rfl, rfl, rfl,
    find_physpage_counters_balance (emptySim 2) [(0, 'L'), (4096, 'S')] rfl rfl rfl⟩

/-- C12 with an allocator that returns the address 8192. -/
theorem init_second_level_table_witness :
    stdLayout.WF stdParams ∧ 8192 % stdLayout.PAGE_SIZE = 0 ∧ 8192 < 2 ^ stdLayout.PTR_BITS ∧
    ∃ pde s', init_second_level stdParams stdLayout (fun _ _ => some 8192) dirSim
        = some (pde, s') ∧
      pde &&& stdParams.PG_VALID ≠ 0 ∧
      pde &&& stdLayout.PAGE_MASK = 8192 ∧
      (∀ i, i < stdLayout.PTRS_PER_PGTBL →
        s'.ptes ((pde &&& stdLayout.PAGE_MASK) + i * stdLayout.PTE_SIZE)
          = ⟨0, stdParams.INVALID_SWAP⟩ ∧
        ¬ flagSet s' ((pde &&& stdLayout.PAGE_MASK) + i * stdLayout.PTE_SIZE)
          stdParams.PG_VALID ∧
        ¬ flagSet s' ((pde &&& stdLayout.PAGE_MASK) + i * stdLayout.PTE_SIZE)
          stdParams.PG_DIRTY ∧
        ¬ flagSet s' ((pde &&& stdLayout.PAGE_MASK) + i * stdLayout.PTE_SIZE)
          stdParams.PG_ONSWAP) ∧
      (∀ q, (∀ i, i < stdLayout.PTRS_PER_PGTBL → q ≠ 8192 + i * stdLayout.PTE_SIZE) →
        s'.ptes q = dirSim.ptes q) :=
  ⟨stdLayout_wf, by decide, by decide,
    init_second_level_table stdParams stdLayout stdLayout_wf (fun _ _ => some 8192) dirSim
      8192 rfl (by decide) (by decide)⟩

/-- C13 at entry 1 of `dirSim`, which was valid before the call. -/
theorem init_pagetable_all_invalid_witness :
    1 < stdLayout.PTRS_PER_PGDIR ∧ dirSim.pgdir 1 &&& stdParams.PG_VALID ≠ 0 ∧
    (init_pagetable stdLayout dirSim).pgdir 1 = 0 ∧
    (init_pagetable stdLayout dirSim).pgdir 1 &&& stdParams.PG_VALID = 0 ∧
    (init_pagetable stdLayout dirSim).pgdir 1 &&& stdLayout.PAGE_MASK = 0 :=
  ⟨by decide, by decide,
    init_pagetable_all_invalid stdParams stdLayout dirSim 1 (by decide)⟩

/-- C14 at frame 1 of a two-frame memory full of stale bytes. -/
theorem init_frame_page_witness :
    1 < staleMemSim.memsize ∧ stdLayout.INT_SIZE + stdLayout.ADDR_SIZE ≤ stdLayout.SIMPAGESIZE ∧
    ((init_frame stdLayout staleMemSim 1 0x1122334455667788).map fun s' =>
      (List.range 34).map s'.physmem) =
      some [255, 255, 255, 255, 255, 255, 255, 255, 255, 255, 255, 255, 255, 255, 255, 255,
        0, 0, 0, 0, 136, 119, 102, 85, 68, 51, 34, 17, 0, 0, 0, 0, 255, 255] ∧
    ∃ s', init_frame stdLayout staleMemSim ((1 : Nat) : Int) 0x1122334455667788 = some s' ∧
      (∀ b, 1 * stdLayout.SIMPAGESIZE ≤ b → b < (1 + 1) * stdLayout.SIMPAGESIZE →
        s'.physmem b =
          if stdLayout.INT_SIZE ≤ b - 1 * stdLayout.SIMPAGESIZE ∧
              b - 1 * stdLayout.SIMPAGESIZE < stdLayout.INT_SIZE + stdLayout.ADDR_SIZE then
            stdLayout.addrByte 0x1122334455667788
              (b - 1 * stdLayout.SIMPAGESIZE - stdLayout.INT_SIZE)
          else 0) ∧
      (∀ b, ¬ (1 * stdLayout.SIMPAGESIZE ≤ b ∧ b < (1 + 1) * stdLayout.SIMPAGESIZE) →
        s'.physmem b = staleMemSim.physmem b) ∧
      s'.ptes = staleMemSim.ptes ∧ s'.coremap = staleMemSim.coremap ∧
      s'.pgdir = staleMemSim.pgdir ∧ s'.memsize = staleMemSim.memsize :=
  ⟨by decide, by decide, by decide,
    init_frame_page stdLayout staleMemSim 1 0x1122334455667788 (by decide) (by decide)⟩

/-- C15 at `partSim`: frame 1 is the first free frame. -/
theorem allocate_frame_free_no_eviction_witness :
    (∃ i, i < partSim.memsize ∧ (partSim.coremap i).in_use = 0) ∧
    (allocate_frame stdParams sampleEnv partSim 11).fn? = some 1 ∧
    ∃ (k : Nat) (s' : Sim), allocate_frame stdParams sampleEnv partSim 11 = .ret (k : Int) s' ∧
      k < partSim.memsize ∧ (partSim.coremap k).in_use = 0 ∧
      s'.ptes = partSim.ptes ∧
      s'.hit_count = partSim.hit_count ∧ s'.miss_count = partSim.miss_count ∧
      s'.ref_count = partSim.ref_count ∧
      s'.evict_clean_count = partSim.evict_clean_count ∧
      s'.evict_dirty_count = partSim.evict_dirty_count ∧
      s'.swap_log = partSim.swap_log ∧ s'.evict_calls = partSim.evict_calls ∧
      s'.memsize = partSim.memsize ∧ s'.pgdir = partSim.pgdir ∧
      s'.physmem = partSim.physmem ∧
      s'.coremap k = ⟨1, 11⟩ ∧ ∀ j, j ≠ k → s'.coremap j = partSim.coremap j :=
  ⟨⟨1, by decide, by decide⟩, by decide,
    allocate_frame_free_no_eviction stdParams sampleEnv partSim 11
      ⟨1, by decide, by decide⟩⟩

theorem twoFrameSim_returns :
    (allocate_frame stdParams sampleEnv twoFrameSim 12).fn? = some 1 := by
  decide

theorem twoFrameSim_full :
    ∀ i, i < twoFrameSim.memsize → (twoFrameSim.coremap i).in_use ≠ 0 := by
  decide

/-- C16 at `twoFrameSim`: entry 11, dirty and resident, is evicted. -/
theorem allocate_frame_dirty_only_valid_witness :
    (∀ q, flagSet twoFrameSim q stdParams.PG_DIRTY → flagSet twoFrameSim q stdParams.PG_VALID) ∧
    scanFree twoFrameSim = -1 ∧ victimOf sampleEnv twoFrameSim = 11 ∧
    flagSet twoFrameSim 11 stdParams.PG_DIRTY ∧
    ∃ s', allocate_frame stdParams sampleEnv twoFrameSim 12 = .ret 1 s' ∧
      (∀ q, flagSet s' q stdParams.PG_DIRTY → flagSet s' q stdParams.PG_VALID) ∧
      ¬ flagSet s' (victimOf sampleEnv twoFrameSim) stdParams.PG_VALID ∧
      ¬ flagSet s' (victimOf sampleEnv twoFrameSim) stdParams.PG_DIRTY := by
  refine ⟨twoFrameSim_dirty_valid, by decide, by decide, by decide, ?_⟩
  obtain ⟨s', hs'⟩ := Outcome.eq_ret _ 1 twoFrameSim_returns
  have h := allocate_frame_dirty_only_valid stdParams sampleEnv twoFrameSim 12 1 s'
    twoFrameSim_dirty_valid hs'
  exact ⟨s', hs', h.1, h.2 (by decide)⟩

/-- C17 at `twoFrameSim`: frame 1 is taken from entry 11 and given to entry 12;
frame 0 still refers to entry 10. -/
theorem allocate_frame_keeps_links_witness :
    (∀ i, i < twoFrameSim.memsize → (twoFrameSim.coremap i).in_use ≠ 0 →
      flagSet twoFrameSim (twoFrameSim.coremap i).pte stdParams.PG_VALID ∧
      (twoFrameSim.ptes (twoFrameSim.coremap i).pte).frame >>> stdParams.PAGE_SHIFT = i) ∧
    (∀ i, i < twoFrameSim.memsize → ∀ j, j < twoFrameSim.memsize →
      (twoFrameSim.coremap i).in_use ≠ 0 → (twoFrameSim.coremap j).in_use ≠ 0 → i ≠ j →
      (twoFrameSim.coremap i).pte ≠ (twoFrameSim.coremap j).pte) ∧
    (∀ i, i < twoFrameSim.memsize → (twoFrameSim.coremap i).in_use ≠ 0 →
      (twoFrameSim.coremap i).pte ≠ 12) ∧
    ∃ s', allocate_frame stdParams sampleEnv twoFrameSim 12 = .ret 1 s' ∧
      (∀ j, j < twoFrameSim.memsize → j ≠ (1 : Int).toNat → (s'.coremap j).in_use ≠ 0 →
        flagSet s' (s'.coremap j).pte stdParams.PG_VALID ∧
        (s'.ptes (s'.coremap j).pte).frame >>> stdParams.PAGE_SHIFT = j) ∧
      (∀ i j, i < twoFrameSim.memsize → j < twoFrameSim.memsize →
        (s'.coremap i).in_use ≠ 0 → (s'.coremap j).in_use ≠ 0 → i ≠ j →
        (s'.coremap i).pte ≠ (s'.coremap j).pte) ∧
      ¬ flagSet s' (victimOf sampleEnv twoFrameSim) stdParams.PG_VALID ∧
      ∀ j, j < twoFrameSim.memsize → (s'.coremap j).pte ≠ victimOf sampleEnv twoFrameSim := by
  have hlink : ∀ i, i < twoFrameSim.memsize → (twoFrameSim.coremap i).in_use ≠ 0 →
      flagSet twoFrameSim (twoFrameSim.coremap i).pte stdParams.PG_VALID ∧
      (twoFrameSim.ptes (twoFrameSim.coremap i).pte).frame >>> stdParams.PAGE_SHIFT = i := by
    decide
  have hdist : ∀ i, i < twoFrameSim.memsize → ∀ j, j < twoFrameSim.memsize →
      (twoFrameSim.coremap i).in_use ≠ 0 → (twoFrameSim.coremap j).in_use ≠ 0 → i ≠ j →
      (twoFrameSim.coremap i).pte ≠ (twoFrameSim.coremap j).pte := by
    intro i hi j hj
    have hi2 : i < 2 := hi
    have hj2 : j < 2 := hj
    interval_cases i <;> interval_cases j <;> decide
  have hp : ∀ i, i < twoFrameSim.memsize → (twoFrameSim.coremap i).in_use ≠ 0 →
      (twoFrameSim.coremap i).pte ≠ 12 := by
    decide
  refine ⟨hlink, hdist, hp, ?_⟩
  obtain ⟨s', hs'⟩ := Outcome.eq_ret _ 1 twoFrameSim_returns
  have h := allocate_frame_keeps_links stdParams sampleEnv twoFrameSim 12 1 s' hlink
    (fun i j hi hj => hdist i hi j hj) hp hs'
  exact ⟨s', hs', h.1, h.2.1, (h.2.2 (by decide)).1, (h.2.2 (by decide)).2⟩

/-- C18 on three frames and three calls. -/
theorem allocate_frame_fills_in_order_witness :
    (∀ i, i < (emptySim 3).memsize → ((emptySim 3).coremap i).in_use = 0) ∧
    [10, 11, 12].length ≤ (emptySim 3).memsize ∧
    allocFrames stdParams sampleEnv (emptySim 3) [10, 11, 12] = [0, 1, 2] ∧
    ∃ s', allocRun stdParams sampleEnv (emptySim 3) [10, 11, 12] = some s' ∧
      s'.evict_clean_count = (emptySim 3).evict_clean_count ∧
      s'.evict_dirty_count = (emptySim 3).evict_dirty_count ∧
      s'.evict_calls = (emptySim 3).evict_calls ∧
      scanFree s' = -1 ∧
      ∀ p s'', (allocate_frame stdParams sampleEnv s' p).sim? = some s'' →
        s''.evict_calls = s'.evict_calls + 1 := by
  have h := allocate_frame_fills_in_order stdParams sampleEnv (emptySim 3) [10, 11, 12]
    (by decide) (by decide)
  obtain ⟨h1, s', h2, h3, h4, h5, h6⟩ := h
  exact ⟨by decide, by decide, h1, s', h2, h3, h4, h5, (h6 rfl).1, (h6 rfl).2⟩

/-- C20 at `twoFrameSim`: entry 11 in frame 1 is written out as frame 1 with
its offset 3, and frame 1 is returned. -/
theorem allocate_frame_pageout_args_witness :
    stdParams.WF ∧ stdParams.PG_VALID < 2 ^ stdParams.PAGE_SHIFT ∧
    stdParams.PG_DIRTY < 2 ^ stdParams.PAGE_SHIFT ∧
    (twoFrameSim.ptes (victimOf sampleEnv twoFrameSim)).frame < 2 ^ stdParams.FRAME_BITS ∧
    (∀ i, i < twoFrameSim.memsize → (twoFrameSim.coremap i).in_use ≠ 0) ∧
    ∃ s', allocate_frame stdParams sampleEnv twoFrameSim 12 = .ret 1 s' ∧
      s'.swap_log = [⟨11, 1, 3⟩] ∧
      (s'.ptes 11).frame >>> stdParams.PAGE_SHIFT = 1 ∧
      (s'.ptes 11).frame &&& stdParams.PG_ONSWAP = 8 ∧
      (pageoutFrame stdParams sampleEnv twoFrameSim : Int) = 1 := by
  refine ⟨stdParams_wf, by decide, by decide, by decide, twoFrameSim_full, ?_⟩
  obtain ⟨s', hs'⟩ := Outcome.eq_ret _ 1 twoFrameSim_returns
  have h := allocate_frame_pageout_args stdParams stdParams_wf sampleEnv twoFrameSim 12 1 s'
    (by decide) (by decide) (by decide) twoFrameSim_full hs'
  obtain ⟨h1, _, h3, h4, h5⟩ := h
  refine ⟨s', hs', ?_, ?_, ?_, ?_⟩
  · rw [h1 (by decide)]; decide
  · have hv : victimOf sampleEnv twoFrameSim = 11 := by decide
    rw [hv] at h3
    rw [h3]; decide
  · have hv : victimOf sampleEnv twoFrameSim = 11 := by decide
    rw [hv] at h4
    rw [h4]; decide
  · exact h5 (by decide)

end PageTable
